import Mathlib

/-! SysY type engine, bitmap and Eeyore statements: shallow embedding and
verified properties

The embedding of the type engine follows `src/sysy_type.h` and
`src/sysy_type.cc`; the bitmap and the Eeyore statements have their own
sections below.

* A `TypePtr` is a shared pointer to an immutable `std::variant` of five
  classes.  Every relation of the engine reads only the pointed-to value, so
  a type is embedded as a finite tree `Ty`; constructor arguments are kept in
  the order of the C++ constructors.
* C++ `int` array lengths are embedded as `Int`; the relations only compare
  them for equality, and `size_of_type` reduces every product to the 32-bit
  two's complement range.
* `std::visit` over a `LambdaVisitor` picks the overload written for the
  active alternatives and falls back to the generic `auto` lambda otherwise;
  this is a `match` with a final catch-all case.
* The function-local static of `make_ptr` is embedded as an explicit
  `Option Ty` state that is threaded through the call.
* Where the identity of a handle matters, the constructors are embedded a
  second time in the namespace `Handle`, over handles that carry an address
  and a process state that holds all function-local statics.
-/

namespace Sysy

/-! ## Data model -/

/-- The variant `Type` of `sysy_type.h` (`VoidType`, `IntType`, `ArrType`,
`PtrType`, `FuncType`), read through its `TypePtr`. -/
inductive Ty where
  | VoidType : Ty
  | IntType (is_const : Bool) : Ty
  | ArrType (ele_type : Ty) (len : Int) : Ty
  | PtrType (base_type : Ty) (is_const : Bool) : Ty
  | FuncType (retval_type : Ty) (arg_types : List Ty) : Ty

/-- The index of the active alternative, as `std::variant::index` reports it. -/
def variant_index : Ty → Nat
  | .VoidType => 0
  | .IntType _ => 1
  | .ArrType _ _ => 2
  | .PtrType _ _ => 3
  | .FuncType _ _ => 4

/-! ## Type query functions (`sysy_type.cc` lines 9-32) -/

/-- The query `is_void`: the handle holds a `VoidType`. -/
def is_void : Ty → Bool
  | .VoidType => true
  | _ => false

/-- The query `is_int`: the handle holds an `IntType`. -/
def is_int : Ty → Bool
  | .IntType _ => true
  | _ => false

/-- The query `is_arr`: the handle holds an `ArrType`. -/
def is_arr : Ty → Bool
  | .ArrType _ _ => true
  | _ => false

/-- The query `is_ptr`: the handle holds a `PtrType`. -/
def is_ptr : Ty → Bool
  | .PtrType _ _ => true
  | _ => false

/-- The query `is_func`: the handle holds a `FuncType`. -/
def is_func : Ty → Bool
  | .FuncType _ _ => true
  | _ => false

/-! ## Actual type getters (`sysy_type.cc` lines 35-58)

Each getter is a `std::get` on the variant, which throws
`std::bad_variant_access` when another alternative is active; that is `none`.
The payload returned is the object of the class, given by its fields. -/

/-- The getter `get_void`; a `VoidType` has no fields. -/
def get_void : Ty → Option Unit
  | .VoidType => some ()
  | _ => none

/-- The getter `get_int`; an `IntType` is its `_is_const`. -/
def get_int : Ty → Option Bool
  | .IntType c => some c
  | _ => none

/-- The getter `get_arr`; an `ArrType` is its `_ele_type` and `_len`. -/
def get_arr : Ty → Option (Ty × Int)
  | .ArrType e n => some (e, n)
  | _ => none

/-- The getter `get_ptr`; a `PtrType` is its `_base_type` and `_is_const`. -/
def get_ptr : Ty → Option (Ty × Bool)
  | .PtrType b c => some (b, c)
  | _ => none

/-- The getter `get_func`; a `FuncType` is its `_retval_type` and
`_arg_types`. -/
def get_func : Ty → Option (Ty × List Ty)
  | .FuncType r args => some (r, args)
  | _ => none

/-! ## Constructors (`sysy_type.cc` lines 62-91, `sysy_type.h` lines 86-97, 147-158) -/

/-- The constructor `make_void`: the value of the static `VOID_T`. -/
def make_void : Ty := .VoidType

/-- The constructor `make_int`: the value of `CONST_INT_T` or of `INT_T`. -/
def make_int (is_const : Bool) : Ty :=
  if is_const then .IntType true else .IntType false

/-- The constructor `make_arr(ele_type, len)`: one array node, no checking. -/
def make_arr (ele_type : Ty) (len : Int) : Ty := .ArrType ele_type len

/-- The templated constructor `ArrType(base_type, dim_begin, dim_end)` once
`*dim_begin` has been read: `d` is the dimension read, `rest` is the range
that remains after `++dim_begin`.  A non-empty rest recurses through
`make_arr(base_type, dim_begin, dim_end)`, an empty one stores the base. -/
def ArrType_from_dims (base_type : Ty) : Int → List Int → Ty
  | d, [] => .ArrType base_type d
  | d, d2 :: rest => .ArrType (ArrType_from_dims base_type d2 rest) d

/-- The templated constructor `make_arr(base_type, dim_begin, dim_end)`.  The
C++ code dereferences `dim_begin` unconditionally, which is undefined on an
empty range; that case yields `none`. -/
def make_arr_dims (base_type : Ty) : List Int → Option Ty
  | [] => none
  | d :: rest => some (ArrType_from_dims base_type d rest)

/-- The constructor `make_ptr`.  The first argument is the function-local
static `INT_PTR_T`: `none` before the first call of the process, afterwards
the pointer built by that first call from its own `base_type`.  The result
is the returned type together with the static after the call. -/
def make_ptr (INT_PTR_T : Option Ty) (base_type : Ty) (is_const : Bool) : Ty × Option Ty :=
  let cached : Ty :=
    match INT_PTR_T with
    | some p => p
    | none => .PtrType base_type false
  if !is_const && is_int base_type then (cached, some cached)
  else (.PtrType base_type is_const, some cached)

/-- The constructor `make_func(retval_type)`: a signature without arguments. -/
def make_func (retval_type : Ty) : Ty := .FuncType retval_type []

/-- The templated constructor `make_func(retval_type, begin, end)`. -/
def make_func_args (retval_type : Ty) (arg_types : List Ty) : Ty :=
  .FuncType retval_type arg_types

/-- The setter `FuncType::set_arg_type(idx, arg_type)`, writing
`_arg_types[idx]`; it exists on function types only.  An index past the end
is undefined in C++ and leaves the list as it is here. -/
def set_arg_type : Ty → Nat → Ty → Ty
  | .FuncType r args, idx, a => .FuncType r (args.set idx a)
  | t, _, _ => t

/-! ## Type info functions (`sysy_type.cc` lines 94-213) -/

/-- The function `is_const_type`: dispatches to the virtual `is_const` of the
active class (`TypeBase::is_const` is `false`; `ArrType` asks its element). -/
def is_const_type : Ty → Bool
  | .VoidType => false
  | .IntType c => c
  | .ArrType e _ => is_const_type e
  | .PtrType _ c => c
  | .FuncType _ _ => false

mutual
/-- The relation `is_same_type` (`sysy_type.cc` lines 103-131). -/
def is_same_type : Ty → Ty → Bool
  | .VoidType, .VoidType => true
  | .IntType c1, .IntType c2 => c1 == c2
  | .ArrType e1 n1, .ArrType e2 n2 => n1 == n2 && is_same_type e1 e2
  | .PtrType b1 _, .PtrType b2 _ => is_same_type b1 b2
  | .FuncType r1 args1, .FuncType r2 args2 =>
      if args1.length != args2.length || !is_same_type r1 r2 then false
      else is_same_type_args args1 args2
  | _, _ => false
/-- The argument loop of the `FuncType` case: positions are visited from 0
upwards and the first pair that is not `is_same_type` returns `false`.  The
loop is entered only after the argument counts were found equal. -/
def is_same_type_args : List Ty → List Ty → Bool
  | a :: args1, b :: args2 =>
      if !is_same_type a b then false else is_same_type_args args1 args2
  | _, _ => true
end

/-- The relation `can_accept` (`sysy_type.cc` lines 135-167).  Its
`FuncType` case calls `is_same_type`, not `can_accept`. -/
def can_accept : Ty → Ty → Bool
  | .VoidType, .VoidType => true
  | .IntType c1, .IntType c2 => !c1 || c2
  | .ArrType e1 n1, .ArrType e2 n2 => n1 == n2 && can_accept e1 e2
  | .PtrType b1 _, .PtrType b2 _ => can_accept b1 b2
  | .PtrType b _, .ArrType e _ => can_accept b e
  | .FuncType r1 args1, .FuncType r2 args2 =>
      if args1.length != args2.length || !is_same_type r1 r2 then false
      else is_same_type_args args1 args2
  | _, _ => false

/-- The function `can_operate` (`sysy_type.cc` lines 169-173): only
`int op int` is valid. -/
def can_operate (type1 type2 : Ty) : Bool :=
  is_int type1 && is_int type2

/-- The function `common_type` (`sysy_type.cc` lines 175-181).  A failed
`assert`, or the `std::get<IntType>` that throws once asserts are compiled
out, is `none`. -/
def common_type (type1 type2 : Ty) : Option Ty :=
  if is_int type1 && is_int type2 then
    match type1, type2 with
    | .IntType type1_is_const, .IntType type2_is_const =>
        some (make_int (type1_is_const && type2_is_const))
    | _, _ => none
  else none

/-- The value of a C++ `int` computation on a 32-bit two's complement target:
the representative of `x` modulo `2^32` in the range `[-2^31, 2^31)`.  C++
leaves signed overflow undefined; this is the result the hardware multiply
delivers. -/
def wrap_int32 (x : Int) : Int :=
  (x + 2147483648) % 4294967296 - 2147483648

/-- The function `size_of_type` (`sysy_type.cc` lines 183-213): dispatches to
the virtual `size` of the active class.  `TypeBase::size` is 0, `IntType` and
`PtrType` give 4, `ArrType` multiplies two `int` values. -/
def size_of_type : Ty → Int
  | .VoidType => 0
  | .IntType _ => 4
  | .ArrType e n => wrap_int32 (n * size_of_type e)
  | .PtrType _ _ => 4
  | .FuncType _ _ => 0

/-! ## The printer (`sysy_type.cc` lines 226-297)

The printer writes to a `std::ostream`; the embedding returns the text
written, or `none` when a `std::get<ArrType>` on a handle that holds another
variant throws `std::bad_variant_access`. -/

/-- The overload `TypePrinter::operator()(const IntType &)`. -/
def print_IntType (is_const : Bool) : String :=
  (if is_const then "const " else "") ++ "int"

/-- The helper `TypePrinter::_print_base_type`, applied to an array: follows
the element chain while the element is not an Int (`std::get<ArrType>` throws
on an element that is neither Int nor array) and prints the Int reached. -/
def _print_base_type : Ty → Option String
  | .ArrType e _ =>
      if is_int e then
        match e with
        | .IntType c => some (print_IntType c)
        | _ => none
      else _print_base_type e
  | _ => none

/-- The helper `TypePrinter::_print_dim_size`, applied to an array: prints
every length of the element chain in brackets and stops at an Int element. -/
def _print_dim_size : Ty → Option String
  | .ArrType e n =>
      if is_int e then some ("[" ++ toString n ++ "]")
      else
        match _print_dim_size e with
        | some s => some ("[" ++ toString n ++ "]" ++ s)
        | none => none
  | _ => none

mutual
/-- The visit `std::visit(printer, *type)` that `operator <<` performs: the
five overloads of `TypePrinter::operator()`. -/
def print_type : Ty → Option String
  | .VoidType => some "void"
  | .IntType c => some (print_IntType c)
  | .ArrType e n =>
      match _print_base_type (.ArrType e n), _print_dim_size (.ArrType e n) with
      | some b, some d => some (b ++ d)
      | _, _ => none
  | .PtrType b _ =>
      if is_int b then
        match print_type b with
        | some s => some (s ++ "[]")
        | none => none
      else if is_arr b then
        match _print_base_type b, _print_dim_size b with
        | some s, some d => some (s ++ "[]" ++ d)
        | _, _ => none
      else
        match print_type b with
        | some s => some ("pointer of " ++ s)
        | none => none
  | .FuncType r args =>
      match print_type r, print_type_args args 0 with
      | some sr, some sa => some (sr ++ "(*)(" ++ sa ++ ")")
      | _, _ => none
/-- The argument loop of the `FuncType` overload from position `i` on: a
separator is written before every argument but the one at position 0. -/
def print_type_args : List Ty → Nat → Option String
  | [], _ => some ""
  | a :: rest, i =>
      match print_type a, print_type_args rest (i + 1) with
      | some s, some t => some ((if i ≥ 1 then ", " else "") ++ s ++ t)
      | _, _ => none
end

/-! ## Handles (`sysy_type.cc` lines 62-91)

Identity of handles is what the canonical constructors are about.  A handle
is the address of the shared `Type` object together with the value stored
there; `std::make_shared` hands out addresses that no earlier object has.
The function-local statics of the constructors are fields of the process
state, `none` until the declaration is first executed. -/

/-- A `TypePtr` with its identity: the address of the `Type` object and the
value stored there. -/
structure TypePtr where
  addr : Nat
  val : Ty

/-- The process state the constructors read and write: the number of objects
`std::make_shared` has created, and the function-local statics `VOID_T`
(`make_void`), `CONST_INT_T`, `INT_T` (`make_int`) and `INT_PTR_T`
(`make_ptr`). -/
structure Statics where
  allocated : Nat
  VOID_T : Option TypePtr
  CONST_INT_T : Option TypePtr
  INT_T : Option TypePtr
  INT_PTR_T : Option TypePtr

/-- The state at process start: nothing allocated, no static initialised. -/
def Statics.start : Statics :=
  { allocated := 0, VOID_T := none, CONST_INT_T := none, INT_T := none, INT_PTR_T := none }

/-- The call `std::make_shared<Type>(v)`: a new object at an address not
used before. -/
def make_shared (s : Statics) (v : Ty) : TypePtr × Statics :=
  ({ addr := s.allocated, val := v }, { s with allocated := s.allocated + 1 })

namespace Handle

/-- The constructor `make_void` on handles: `VOID_T` is created by the first
call and returned by every call. -/
def make_void (s : Statics) : TypePtr × Statics :=
  match s.VOID_T with
  | some h => (h, s)
  | none =>
      let r := make_shared s .VoidType
      (r.1, { r.2 with VOID_T := some r.1 })

/-- The constructor `make_int` on handles: the first call creates
`CONST_INT_T` and then `INT_T`; every call returns the one asked for. -/
def make_int (s : Statics) (is_const : Bool) : TypePtr × Statics :=
  let c : TypePtr × Statics :=
    match s.CONST_INT_T with
    | some h => (h, s)
    | none =>
        let r := make_shared s (.IntType true)
        (r.1, { r.2 with CONST_INT_T := some r.1 })
  let i : TypePtr × Statics :=
    match c.2.INT_T with
    | some h => (h, c.2)
    | none =>
        let r := make_shared c.2 (.IntType false)
        (r.1, { r.2 with INT_T := some r.1 })
  (if is_const then c.1 else i.1, i.2)

/-- The constructor `make_arr(ele_type, len)` on handles. -/
def make_arr (s : Statics) (ele_type : TypePtr) (len : Int) : TypePtr × Statics :=
  make_shared s (.ArrType ele_type.val len)

/-- The templated constructor `ArrType(base_type, dim_begin, dim_end)` on
handles, after `*dim_begin` was read: the inner arrays are created, innermost
first, before the value of this array exists. -/
def ArrType_from_dims (s : Statics) (base_type : TypePtr) : Int → List Int → Ty × Statics
  | d, [] => (.ArrType base_type.val d, s)
  | d, d2 :: rest =>
      let inner := ArrType_from_dims s base_type d2 rest
      let h := make_shared inner.2 inner.1
      (.ArrType h.1.val d, h.2)

/-- The templated constructor `make_arr(base_type, dim_begin, dim_end)` on
handles, for the non-empty range `d :: rest`. -/
def make_arr_dims (s : Statics) (base_type : TypePtr) (d : Int) (rest : List Int) :
    TypePtr × Statics :=
  let t := ArrType_from_dims s base_type d rest
  make_shared t.2 t.1

/-- The constructor `make_ptr` on handles: the first call creates
`INT_PTR_T` from its own `base_type`; a call with `is_const` false and an Int
base returns `INT_PTR_T`, every other call a new object. -/
def make_ptr (s : Statics) (base_type : TypePtr) (is_const : Bool) : TypePtr × Statics :=
  let p : TypePtr × Statics :=
    match s.INT_PTR_T with
    | some h => (h, s)
    | none =>
        let r := make_shared s (.PtrType base_type.val false)
        (r.1, { r.2 with INT_PTR_T := some r.1 })
  if !is_const && is_int base_type.val then p
  else make_shared p.2 (.PtrType base_type.val is_const)

/-- The constructor `make_func(retval_type)` on handles. -/
def make_func (s : Statics) (retval_type : TypePtr) : TypePtr × Statics :=
  make_shared s (.FuncType retval_type.val [])

/-- The templated constructor `make_func(retval_type, begin, end)` on
handles. -/
def make_func_args (s : Statics) (retval_type : TypePtr) (arg_types : List TypePtr) :
    TypePtr × Statics :=
  make_shared s (.FuncType retval_type.val (arg_types.map TypePtr.val))

/-- The function `common_type` on handles: it returns what `make_int`
returns. -/
def common_type (s : Statics) (type1 type2 : TypePtr) : Option (TypePtr × Statics) :=
  if is_int type1.val && is_int type2.val then
    match type1.val, type2.val with
    | .IntType type1_is_const, .IntType type2_is_const =>
        some (make_int s (type1_is_const && type2_is_const))
    | _, _ => none
  else none

end Handle

/-- One constructor call, with its arguments. -/
inductive Call where
  | make_void : Call
  | make_int (is_const : Bool) : Call
  | make_arr (ele_type : TypePtr) (len : Int) : Call
  | make_arr_dims (base_type : TypePtr) (d : Int) (rest : List Int) : Call
  | make_ptr (base_type : TypePtr) (is_const : Bool) : Call
  | make_func (retval_type : TypePtr) : Call
  | make_func_args (retval_type : TypePtr) (arg_types : List TypePtr) : Call

/-- The handle a constructor call returns and the state it leaves. -/
def Call.exec (s : Statics) : Call → TypePtr × Statics
  | .make_void => Handle.make_void s
  | .make_int c => Handle.make_int s c
  | .make_arr e n => Handle.make_arr s e n
  | .make_arr_dims b d rest => Handle.make_arr_dims s b d rest
  | .make_ptr b c => Handle.make_ptr s b c
  | .make_func r => Handle.make_func s r
  | .make_func_args r args => Handle.make_func_args s r args

/-- The state after a sequence of constructor calls. -/
def run_calls (s : Statics) : List Call → Statics
  | [] => s
  | c :: rest => run_calls (c.exec s).2 rest

/-- The expression `make_ptr(make_int(false), false)`, evaluated in state
`s`: the call of `make_int` runs first, then the call of `make_ptr`. -/
def Handle.make_ptr_of_int (s : Statics) : TypePtr × Statics :=
  let i := Handle.make_int s false
  Handle.make_ptr i.2 i.1 false

/-- Every static that is initialised in `s` holds the same handle in `s2`. -/
def Statics.kept (s s2 : Statics) : Prop :=
  (∀ h, s.VOID_T = some h → s2.VOID_T = some h) ∧
  (∀ h, s.CONST_INT_T = some h → s2.CONST_INT_T = some h) ∧
  (∀ h, s.INT_T = some h → s2.INT_T = some h) ∧
  (∀ h, s.INT_PTR_T = some h → s2.INT_PTR_T = some h)

/-- The static `INT_T`, once initialised, points to a non-const Int. -/
def Statics.int_ok (s : Statics) : Prop :=
  ∀ h, s.INT_T = some h → h.val = .IntType false

/-! ## Specification-side definitions -/

/-- The right-nested chain `Array(d1, Array(d2, ... Array(dn, base)))` of the
specification, built with `make_arr` from the innermost dimension outwards. -/
def spec_array_chain (base : Ty) : List Int → Ty
  | [] => base
  | d :: rest => make_arr (spec_array_chain base rest) d

mutual
/-- The shape invariant of the data model: the element of every array, at
every depth, is an `IntType` or an `ArrType`. -/
def well_formed : Ty → Bool
  | .VoidType => true
  | .IntType _ => true
  | .ArrType e _ => (is_int e || is_arr e) && well_formed e
  | .PtrType b _ => well_formed b
  | .FuncType r args => well_formed r && well_formed_args args
/-- The shape invariant on every member of an argument list. -/
def well_formed_args : List Ty → Bool
  | [] => true
  | a :: args => well_formed a && well_formed_args args
end

/-- The text `[d1][d2]...[dn]`: every length in decimal, outermost first. -/
def spec_dims_text : List Int → String
  | [] => ""
  | d :: rest => "[" ++ toString d ++ "]" ++ spec_dims_text rest

/-- The texts `s1, s2, ..., sn` joined by a comma and a blank. -/
def spec_comma_separated : List String → String
  | [] => ""
  | [s] => s
  | s :: t :: rest => s ++ ", " ++ spec_comma_separated (t :: rest)

/-- The texts `, s1, s2, ..., sn`: every text preceded by a comma and a
blank. -/
def spec_comma_tail : List String → String
  | [] => ""
  | s :: rest => ", " ++ s ++ spec_comma_tail rest

end Sysy

/-! # Bitmap (`src/bitmap.h`, `src/bitmap.cc`)

A `Bitmap` is a `std::vector<uint32_t>` of words and a `size_t` bit count.
Words are embedded as natural numbers below `2^32`, `size_t` as a natural
number with 64-bit wrap-around where the code adds.  `std::vector::at` throws
`std::out_of_range` past the end and a failed `assert` aborts; an operation
that ends in either way returns `none`. -/

namespace Utils

/-- The class `Bitmap`: the words `_bits` and the number of bits `_size`. -/
structure Bitmap where
  _bits : List Nat
  _size : Nat
  deriving DecidableEq

/-- The conversion of an `int` to `size_t`. -/
def size_t_of_int (x : Int) : Nat := (x % 18446744073709551616).toNat

/-- The helper `_ceil_div32`: `(x + 31) >> 5` in `size_t` arithmetic. -/
def _ceil_div32 (x : Nat) : Nat := ((x + 31) % 18446744073709551616) >>> 5

/-- The helper `_div32`: `x >> 5`. -/
def _div32 (x : Nat) : Nat := x >>> 5

/-- The helper `_remain_div32`: `x & 31`. -/
def _remain_div32 (x : Nat) : Nat := x &&& 31

/-- The `int` value `1 << r` for a shift `r` from 0 to 31, converted to
`uint32_t` as the compound assignments do. -/
def bit_uint32 (r : Nat) : Nat := (1 <<< r) % 4294967296

/-- The complement `~x` of a 32-bit word. -/
def not_uint32 (x : Nat) : Nat := x ^^^ 4294967295

namespace Bitmap

/-- The constructor `Bitmap(int size)`: `_ceil_div32(size)` zero words. -/
def new (size : Int) : Bitmap :=
  { _bits := List.replicate (_ceil_div32 (size_t_of_int size)) 0,
    _size := size_t_of_int size }

/-- The member `size`. -/
def size (b : Bitmap) : Nat := b._size

/-- The member `resize`: the vector is cut or filled with zero words; bits of
a word that is kept are not touched. -/
def resize (b : Bitmap) (size : Nat) : Bitmap :=
  { _bits := b._bits.take (_ceil_div32 size) ++
      List.replicate (_ceil_div32 size - b._bits.length) 0,
    _size := size }

/-- The member `get`: bit `idx & 31` of word `idx >> 5`. -/
def get (b : Bitmap) (idx : Nat) : Option Bool :=
  match b._bits[_div32 idx]? with
  | none => none
  | some w => some ((w >>> _remain_div32 idx) &&& 1 != 0)

/-- The member `set(idx)`: the word is or-ed with `1 << (idx & 31)`. -/
def set (b : Bitmap) (idx : Nat) : Option Bitmap :=
  match b._bits[_div32 idx]? with
  | none => none
  | some w =>
      some { b with _bits := b._bits.set (_div32 idx) (w ||| bit_uint32 (_remain_div32 idx)) }

/-- The member `reset`: the word is and-ed with `~(1 << (idx & 31))`. -/
def reset (b : Bitmap) (idx : Nat) : Option Bitmap :=
  match b._bits[_div32 idx]? with
  | none => none
  | some w =>
      let cleared := w &&& not_uint32 (bit_uint32 (_remain_div32 idx))
      some { b with _bits := b._bits.set (_div32 idx) cleared }

/-- The member `set(idx, val)`. -/
def set_val (b : Bitmap) (idx : Nat) (val : Bool) : Option Bitmap :=
  if val then b.set idx else b.reset idx

/-- The member `flip`: the word is xor-ed with `1 << (idx & 31)`. -/
def flip (b : Bitmap) (idx : Nat) : Option Bitmap :=
  match b._bits[_div32 idx]? with
  | none => none
  | some w =>
      some { b with _bits := b._bits.set (_div32 idx) (w ^^^ bit_uint32 (_remain_div32 idx)) }

/-- The member `clear`: every word becomes 0. -/
def clear (b : Bitmap) : Bitmap :=
  { b with _bits := b._bits.map (fun _ => 0) }

/-- The loop of `cnt` after `k` rounds: `res` has received `get(i)` for every
`i` below `k`. -/
def cnt_loop (b : Bitmap) : Nat → Option Nat
  | 0 => some 0
  | k + 1 =>
      match cnt_loop b k, b.get k with
      | some res, some v => some (res + v.toNat)
      | _, _ => none

/-- The member `cnt`.  Its counter is an `int`: for a size of `2^31` or more
the increment overflows, which C++ leaves undefined; that case is `none`. -/
def cnt (b : Bitmap) : Option Nat :=
  if 2147483648 ≤ b._size then none else cnt_loop b b._size

/-- The member `flip_all`: every word is complemented. -/
def flip_all (b : Bitmap) : Bitmap :=
  { b with _bits := b._bits.map not_uint32 }

/-- The loop shared by the three binary operations: word `i` of this bitmap
becomes `f` of itself and of `other._bits.at(i)`, for every word of this
bitmap; `other._bits.at(i)` throws when the other vector is shorter. -/
def combine_words (f : Nat → Nat → Nat) : List Nat → List Nat → Option (List Nat)
  | [], _ => some []
  | _ :: _, [] => none
  | w :: ws, v :: vs =>
      match combine_words f ws vs with
      | some rest => some (f w v :: rest)
      | none => none

/-- The member `union_with`; `other` is read through a const reference. -/
def union_with (b other : Bitmap) : Option Bitmap :=
  if other.size = b.size then
    match combine_words (fun w v => w ||| v) b._bits other._bits with
    | some ws => some { b with _bits := ws }
    | none => none
  else none

/-- The member `intersect_with`; `other` is read through a const reference. -/
def intersect_with (b other : Bitmap) : Option Bitmap :=
  if other.size = b.size then
    match combine_words (fun w v => w &&& v) b._bits other._bits with
    | some ws => some { b with _bits := ws }
    | none => none
  else none

/-- The member `diff_with`; `other` is read through a const reference. -/
def diff_with (b other : Bitmap) : Option Bitmap :=
  if other.size = b.size then
    match combine_words (fun w v => w &&& not_uint32 v) b._bits other._bits with
    | some ws => some { b with _bits := ws }
    | none => none
  else none

/-- The class invariant that the constructor, for a size that is not
negative, and `resize` establish and that every member keeps: one word for
every 32 bits, each word below `2^32`. -/
def wf (b : Bitmap) : Prop :=
  b._bits.length = (b._size + 31) / 32 ∧ ∀ w ∈ b._bits, w < 4294967296

/-- The number of indices below `size()` at which `get` is true. -/
def spec_count (b : Bitmap) : Nat :=
  (List.range b._size).countP (fun i => b.get i == some true)

end Bitmap

end Utils

/-! # Eeyore statements (`src/eeyore.h`, `src/eeyore.cc`)

An operand is an `int` literal or one of three kinds of variable; a statement
is one of fourteen structs.  The fields of every struct are kept in the order
of their declaration. -/

namespace Eeyore

/-- The struct `Label`. -/
structure Label where
  id : Int

/-- The variant `Operand`: an `int`, an `OrigVar` (with `id` and `size`), a
`TempVar` or a `Param`. -/
inductive Operand where
  | int (value : Int) : Operand
  | OrigVar (id : Int) (size : Int) : Operand
  | TempVar (id : Int) : Operand
  | Param (id : Int) : Operand
  deriving DecidableEq

/-- The enumeration `UnaryOp`. -/
inductive UnaryOp where
  | NEG | NOT
  deriving DecidableEq

/-- The enumeration `BinaryOp`. -/
inductive BinaryOp where
  | ADD | SUB | MUL | DIV | MOD | OR | AND | GT | LT | GE | LE | EQ | NE
  deriving DecidableEq

/-- The variant `EeyoreStatement` with its fourteen alternatives. -/
inductive EeyoreStatement where
  | DeclStmt (var : Operand) : EeyoreStatement
  | FuncDefStmt (func_name : String) (arg_cnt : Int) : EeyoreStatement
  | EndFuncDefStmt (func_name : String) : EeyoreStatement
  | ParamStmt (param : Operand) : EeyoreStatement
  | FuncCallStmt (func_name : String) (retval_receiver : Option Operand) : EeyoreStatement
  | RetStmt (retval : Option Operand) : EeyoreStatement
  | GotoStmt (goto_label : Label) : EeyoreStatement
  | CondGotoStmt (op : BinaryOp) (opr1 opr2 : Operand) (goto_label : Label) : EeyoreStatement
  | UnaryOpStmt (op_type : UnaryOp) (opr opr1 : Operand) : EeyoreStatement
  | BinaryOpStmt (op_type : BinaryOp) (opr opr1 opr2 : Operand) : EeyoreStatement
  | MoveStmt (opr opr1 : Operand) : EeyoreStatement
  | ReadArrStmt (opr arr_opr idx_opr : Operand) : EeyoreStatement
  | WriteArrStmt (opr arr_opr idx_opr : Operand) : EeyoreStatement
  | LabelStmt (label : Label) : EeyoreStatement

/-- The test `std::holds_alternative<int>` on an operand. -/
def holds_int : Operand → Bool
  | .int _ => true
  | _ => false

/-- The helper `remove_int_from_vec`: walks the vector and erases every
operand that holds an `int`; the others keep their order. -/
def remove_int_from_vec : List Operand → List Operand
  | [] => []
  | opr :: rest =>
      if holds_int opr then remove_int_from_vec rest
      else opr :: remove_int_from_vec rest

/-- The function `used_vars` (`eeyore.cc` lines 27-57): the visitor picks the
operands read by the statement, then the `int` operands are removed. -/
def used_vars (stmt : EeyoreStatement) : List Operand :=
  let used_oprs : List Operand :=
    match stmt with
    | .ParamStmt param => [param]
    | .RetStmt retval =>
        match retval with
        | some v => [v]
        | none => []
    | .CondGotoStmt _ opr1 opr2 _ => [opr1, opr2]
    | .UnaryOpStmt _ _ opr1 => [opr1]
    | .BinaryOpStmt _ _ opr1 opr2 => [opr1, opr2]
    | .MoveStmt _ opr1 => [opr1]
    | .ReadArrStmt _ arr_opr idx_opr => [arr_opr, idx_opr]
    | .WriteArrStmt opr arr_opr idx_opr => [opr, arr_opr, idx_opr]
    | .FuncCallStmt _ _ => []
    | _ => []
  remove_int_from_vec used_oprs

/-- The function `defined_vars` (`eeyore.cc` lines 59-79): the visitor has
overloads for `DeclStmt`, `UnaryOpStmt`, `BinaryOpStmt`, `MoveStmt` and
`FuncCallStmt`; every other statement falls to the generic overload, which
returns an empty vector.  The `int` operands are removed afterwards. -/
def defined_vars (stmt : EeyoreStatement) : List Operand :=
  let defined_oprs : List Operand :=
    match stmt with
    | .DeclStmt var => [var]
    | .UnaryOpStmt _ opr _ => [opr]
    | .BinaryOpStmt _ opr _ _ => [opr]
    | .MoveStmt opr _ => [opr]
    | .FuncCallStmt _ _ => []
    | _ => []
  remove_int_from_vec defined_oprs

end Eeyore

namespace Sysy

/-! ## Auxiliary lemmas -/

theorem is_same_type_args_iff :
    ∀ (args1 args2 : List Ty), args1.length = args2.length →
      (is_same_type_args args1 args2 = true ↔
        ∀ (i : Nat) (h1 : i < args1.length) (h2 : i < args2.length),
          is_same_type (args1.get ⟨i, h1⟩) (args2.get ⟨i, h2⟩) = true)
  | [], [], _ => by simp [is_same_type_args]
  | [], _ :: _, h => by simp at h
  | _ :: _, [], h => by simp at h
  | a :: args1, b :: args2, h => by
      have hlen : args1.length = args2.length := by simpa using h
      have ih := is_same_type_args_iff args1 args2 hlen
      simp only [is_same_type_args]
      constructor
      · intro hyp i h1 h2
        by_cases hab : is_same_type a b = true
        · simp [hab] at hyp
          cases i with
          | zero => simpa using hab
          | succ j =>
              simpa using ih.mp hyp j (by simpa using h1) (by simpa using h2)
        · simp [hab] at hyp
      · intro hyp
        have h0 := hyp 0 (by simp) (by simp)
        simp only [List.get_eq_getElem, List.getElem_cons_zero] at h0
        simp only [h0, Bool.not_true, Bool.false_eq_true, if_false]
        apply ih.mpr
        intro i h1 h2
        simpa using hyp (i + 1) (by simpa using h1) (by simpa using h2)

mutual
theorem is_same_type_refl : ∀ t : Ty, is_same_type t t = true
  | .VoidType => by simp [is_same_type]
  | .IntType _ => by simp [is_same_type]
  | .ArrType e _ => by simp [is_same_type, is_same_type_refl e]
  | .PtrType b _ => by simp [is_same_type, is_same_type_refl b]
  | .FuncType r args => by
      simp [is_same_type, is_same_type_refl r, is_same_type_args_refl args]
theorem is_same_type_args_refl : ∀ args : List Ty, is_same_type_args args args = true
  | [] => by simp [is_same_type_args]
  | a :: args => by
      simp [is_same_type_args, is_same_type_refl a, is_same_type_args_refl args]
end

mutual
theorem is_same_type_symm : ∀ a b : Ty, is_same_type a b = is_same_type b a
  | .VoidType, b => by cases b <;> simp [is_same_type]
  | .IntType c1, b => by
      cases b with
      | IntType c2 => cases c1 <;> cases c2 <;> rfl
      | _ => simp [is_same_type]
  | .ArrType e1 n1, b => by
      cases b with
      | ArrType e2 n2 =>
          have hn : (n1 == n2) = (n2 == n1) := by
            rw [Bool.eq_iff_iff, beq_iff_eq, beq_iff_eq]
            exact eq_comm
          simp only [is_same_type]
          rw [hn, is_same_type_symm e1 e2]
      | _ => simp [is_same_type]
  | .PtrType b1 _, b => by
      cases b with
      | PtrType b2 _ => simp only [is_same_type, is_same_type_symm b1 b2]
      | _ => simp [is_same_type]
  | .FuncType r1 args1, b => by
      cases b with
      | FuncType r2 args2 =>
          simp only [is_same_type, is_same_type_symm r1 r2]
          by_cases hlen : args1.length = args2.length
          · simp [hlen, is_same_type_args_symm args1 args2 hlen]
          · have hlen2 : ¬ args2.length = args1.length := fun h => hlen h.symm
            simp [hlen, hlen2]
      | _ => simp [is_same_type]
theorem is_same_type_args_symm :
    ∀ args1 args2 : List Ty, args1.length = args2.length →
      is_same_type_args args1 args2 = is_same_type_args args2 args1
  | [], [], _ => by simp [is_same_type_args]
  | [], _ :: _, h => by simp at h
  | _ :: _, [], h => by simp at h
  | a :: args1, b :: args2, h => by
      simp only [is_same_type_args, is_same_type_symm a b,
        is_same_type_args_symm args1 args2 (by simpa using h)]
end

theorem is_same_type_func_iff (r1 r2 : Ty) (args1 args2 : List Ty) :
    is_same_type (.FuncType r1 args1) (.FuncType r2 args2) = true ↔
      (args1.length = args2.length ∧ is_same_type r1 r2 = true ∧
        ∀ (i : Nat) (h1 : i < args1.length) (h2 : i < args2.length),
          is_same_type (args1.get ⟨i, h1⟩) (args2.get ⟨i, h2⟩) = true) := by
  simp only [is_same_type]
  by_cases hlen : args1.length = args2.length
  · by_cases hr : is_same_type r1 r2 = true
    · simp [hlen, hr, is_same_type_args_iff args1 args2 hlen]
    · simp [hlen, hr]
  · simp [hlen]

theorem is_const_type_eq_of_same :
    ∀ a b : Ty, is_same_type a b = true → well_formed a = true → is_ptr a = false →
      is_const_type a = is_const_type b
  | .VoidType, b, h, _, _ => by cases b <;> simp_all [is_same_type, is_const_type]
  | .IntType _, b, h, _, _ => by cases b <;> simp_all [is_same_type, is_const_type]
  | .ArrType e _, b, h, hw, _ => by
      cases b with
      | ArrType e2 n2 =>
          simp only [is_same_type, Bool.and_eq_true] at h
          simp only [well_formed, Bool.and_eq_true, Bool.or_eq_true] at hw
          have hp : is_ptr e = false := by
            cases e <;> simp_all [is_int, is_arr, is_ptr]
          simpa [is_const_type] using is_const_type_eq_of_same e e2 h.2 hw.2 hp
      | _ => simp [is_same_type] at h
  | .PtrType _ _, _, _, _, hp => by simp [is_ptr] at hp
  | .FuncType _ _, b, h, _, _ => by cases b <;> simp_all [is_same_type, is_const_type]

theorem ArrType_from_dims_eq_chain (base : Ty) :
    ∀ (d : Int) (rest : List Int),
      ArrType_from_dims base d rest = spec_array_chain base (d :: rest)
  | d, [] => by simp [ArrType_from_dims, spec_array_chain, make_arr]
  | d, d2 :: rest => by
      have ih := ArrType_from_dims_eq_chain base d2 rest
      simp only [ArrType_from_dims, ih]
      simp [spec_array_chain, make_arr]

/-! ### Sizes -/

theorem wrap_int32_emod (x : Int) : wrap_int32 x % 4294967296 = x % 4294967296 := by
  unfold wrap_int32
  omega

theorem wrap_int32_congr (x y : Int) (h : x % 4294967296 = y % 4294967296) :
    wrap_int32 x = wrap_int32 y := by
  unfold wrap_int32
  omega

theorem wrap_int32_of_fits (x : Int) (h1 : -2147483648 ≤ x) (h2 : x < 2147483648) :
    wrap_int32 x = x := by
  unfold wrap_int32
  omega

theorem wrap_int32_range (x : Int) :
    -2147483648 ≤ wrap_int32 x ∧ wrap_int32 x < 2147483648 := by
  unfold wrap_int32
  omega

theorem wrap_int32_mul_wrap (a b : Int) : wrap_int32 (a * wrap_int32 b) = wrap_int32 (a * b) := by
  apply wrap_int32_congr
  have h : wrap_int32 b ≡ b [ZMOD 4294967296] := wrap_int32_emod b
  exact Int.ModEq.mul_left a h

theorem size_of_chain (c : Bool) :
    ∀ dims : List Int,
      size_of_type (spec_array_chain (.IntType c) dims) = wrap_int32 (4 * dims.prod)
  | [] => by simp [spec_array_chain, size_of_type, wrap_int32]
  | d :: rest => by
      have ih := size_of_chain c rest
      simp only [spec_array_chain, make_arr, size_of_type, ih, wrap_int32_mul_wrap,
        List.prod_cons]
      congr 1
      ring

/-! ### Printing -/

theorem print_base_type_chain (c : Bool) :
    ∀ (d : Int) (rest : List Int),
      _print_base_type (spec_array_chain (.IntType c) (d :: rest)) = some (print_IntType c)
  | d, [] => by simp [spec_array_chain, make_arr, _print_base_type, is_int]
  | d, d2 :: rest => by
      have ih := print_base_type_chain c d2 rest
      simp only [spec_array_chain, make_arr] at ih ⊢
      simp only [_print_base_type, is_int, Bool.false_eq_true, if_false] at ih ⊢
      exact ih

theorem print_dim_size_step (e : Ty) (n2 n : Int) :
    _print_dim_size (.ArrType (.ArrType e n2) n) =
      (_print_dim_size (.ArrType e n2)).map (fun s => "[" ++ toString n ++ "]" ++ s) := by
  conv => lhs; rw [_print_dim_size]
  cases _print_dim_size (.ArrType e n2) <;> simp [is_int]

theorem print_dim_size_chain (c : Bool) :
    ∀ (d : Int) (rest : List Int),
      _print_dim_size (spec_array_chain (.IntType c) (d :: rest)) =
        some (spec_dims_text (d :: rest))
  | d, [] => by
      simp [spec_array_chain, make_arr, _print_dim_size, is_int, spec_dims_text]
  | d, d2 :: rest => by
      have ih := print_dim_size_chain c d2 rest
      simp only [spec_array_chain, make_arr] at ih
      simp only [spec_array_chain, make_arr]
      rw [print_dim_size_step, ih]
      simp [spec_dims_text]

theorem print_type_chain (c : Bool) (d : Int) (rest : List Int) :
    print_type (spec_array_chain (.IntType c) (d :: rest)) =
      some (print_IntType c ++ spec_dims_text (d :: rest)) := by
  have hb := print_base_type_chain c d rest
  have hd := print_dim_size_chain c d rest
  simp only [spec_array_chain, make_arr] at hb hd ⊢
  simp only [print_type, hb, hd]

theorem well_formed_arr_is_chain :
    ∀ t : Ty, is_arr t = true → well_formed t = true →
      ∃ (c : Bool) (dims : List Int), dims ≠ [] ∧ t = spec_array_chain (.IntType c) dims
  | .ArrType (.IntType c) n, _, _ => ⟨c, [n], by simp, by simp [spec_array_chain, make_arr]⟩
  | .ArrType (.ArrType e2 n2) n, _, hw => by
      have hw2 : well_formed (.ArrType e2 n2) = true := by
        simp only [well_formed, Bool.and_eq_true] at hw ⊢
        exact hw.2
      obtain ⟨c, dims, _, hdims⟩ := well_formed_arr_is_chain (.ArrType e2 n2) rfl hw2
      exact ⟨c, n :: dims, by simp, by simp [spec_array_chain, make_arr, ← hdims]⟩
  | .ArrType .VoidType _, _, hw => by simp [well_formed, is_int, is_arr] at hw
  | .ArrType (.PtrType _ _) _, _, hw => by simp [well_formed, is_int, is_arr] at hw
  | .ArrType (.FuncType _ _) _, _, hw => by simp [well_formed, is_int, is_arr] at hw
  | .VoidType, h, _ => by simp [is_arr] at h
  | .IntType _, h, _ => by simp [is_arr] at h
  | .PtrType _ _, h, _ => by simp [is_arr] at h
  | .FuncType _ _, h, _ => by simp [is_arr] at h

theorem spec_comma_separated_cons (t : String) (rest : List String) :
    spec_comma_separated (t :: rest) = t ++ spec_comma_tail rest := by
  induction rest generalizing t with
  | nil => simp [spec_comma_separated, spec_comma_tail]
  | cons u rest ih =>
      simp only [spec_comma_separated, spec_comma_tail, ih u, String.append_assoc]

theorem print_type_args_tail :
    ∀ (args : List Ty) (texts : List String) (i : Nat),
      args.map print_type = texts.map some →
        print_type_args args (i + 1) = some (spec_comma_tail texts)
  | [], [], _, _ => by simp [print_type_args, spec_comma_tail]
  | [], _ :: _, _, h => by simp at h
  | _ :: _, [], _, h => by simp at h
  | a :: args, t :: texts, i, h => by
      simp only [List.map_cons, List.cons.injEq] at h
      have ih := print_type_args_tail args texts (i + 1) h.2
      simp [print_type_args, h.1, ih, spec_comma_tail, String.append_assoc]

theorem print_type_args_zero (args : List Ty) (texts : List String)
    (h : args.map print_type = texts.map some) :
    print_type_args args 0 = some (spec_comma_separated texts) := by
  cases args with
  | nil =>
      cases texts with
      | nil => simp [print_type_args, spec_comma_separated]
      | cons _ _ => simp at h
  | cons a args =>
      cases texts with
      | nil => simp at h
      | cons t texts =>
          simp only [List.map_cons, List.cons.injEq] at h
          have ht := print_type_args_tail args texts 0 h.2
          simp [print_type_args, h.1, ht, spec_comma_separated_cons]

theorem make_int_eq (c : Bool) : make_int c = .IntType c := by
  cases c <;> rfl

/-! ### Handles and statics -/

theorem kept_refl (s : Statics) : s.kept s :=
  ⟨fun _ h => h, fun _ h => h, fun _ h => h, fun _ h => h⟩

theorem kept_trans {s1 s2 s3 : Statics} (h12 : s1.kept s2) (h23 : s2.kept s3) : s1.kept s3 :=
  ⟨fun h e => h23.1 h (h12.1 h e), fun h e => h23.2.1 h (h12.2.1 h e),
    fun h e => h23.2.2.1 h (h12.2.2.1 h e), fun h e => h23.2.2.2 h (h12.2.2.2 h e)⟩

theorem make_shared_kept (s : Statics) (v : Ty) : s.kept (make_shared s v).2 :=
  ⟨fun _ h => h, fun _ h => h, fun _ h => h, fun _ h => h⟩

theorem make_shared_INT_T (s : Statics) (v : Ty) : (make_shared s v).2.INT_T = s.INT_T := rfl

theorem handle_from_dims_kept (s : Statics) (b : TypePtr) :
    ∀ (d : Int) (rest : List Int),
      s.kept (Handle.ArrType_from_dims s b d rest).2 ∧
      (Handle.ArrType_from_dims s b d rest).2.INT_T = s.INT_T
  | d, [] => ⟨kept_refl s, rfl⟩
  | d, d2 :: rest => by
      have ih := handle_from_dims_kept s b d2 rest
      simp only [Handle.ArrType_from_dims]
      exact ⟨kept_trans ih.1 (make_shared_kept _ _), ih.2⟩

theorem make_void_kept (s : Statics) :
    s.kept (Handle.make_void s).2 ∧ (Handle.make_void s).2.INT_T = s.INT_T ∧
    (Handle.make_void s).2.VOID_T = some (Handle.make_void s).1 := by
  unfold Handle.make_void
  cases h : s.VOID_T with
  | none =>
      refine ⟨⟨?_, fun _ e => e, fun _ e => e, fun _ e => e⟩, rfl, rfl⟩
      intro x e
      rw [h] at e
      cases e
  | some x => exact ⟨kept_refl s, rfl, h⟩

theorem make_int_kept (s : Statics) (c : Bool) :
    s.kept (Handle.make_int s c).2 ∧
    (s.int_ok → (Handle.make_int s c).2.int_ok) ∧
    (s.int_ok → (Handle.make_int s false).1.val = .IntType false) ∧
    (∃ hc hi, (Handle.make_int s c).2.CONST_INT_T = some hc ∧
      (Handle.make_int s c).2.INT_T = some hi ∧
      (Handle.make_int s c).1 = if c then hc else hi) := by
  unfold Handle.make_int Statics.kept Statics.int_ok
  cases hC : s.CONST_INT_T <;> cases hI : s.INT_T <;>
    simp_all [make_shared]

theorem make_ptr_kept (s : Statics) (b : TypePtr) (c : Bool) :
    s.kept (Handle.make_ptr s b c).2 ∧ (Handle.make_ptr s b c).2.INT_T = s.INT_T := by
  unfold Handle.make_ptr Statics.kept
  cases hP : s.INT_PTR_T <;> cases c <;> cases hi : is_int b.val <;>
    simp_all [make_shared]

theorem make_ptr_returns_static (s : Statics) (b : TypePtr) (hb : is_int b.val = true) :
    (Handle.make_ptr s b false).2.INT_PTR_T = some (Handle.make_ptr s b false).1 ∧
    (∀ p, s.INT_PTR_T = some p → (Handle.make_ptr s b false).1 = p) := by
  unfold Handle.make_ptr
  cases hP : s.INT_PTR_T <;> simp_all [make_shared]

theorem exec_kept (s : Statics) (c : Call) :
    s.kept (c.exec s).2 ∧ (s.int_ok → (c.exec s).2.int_ok) := by
  cases c with
  | make_void =>
      have h := make_void_kept s
      refine ⟨h.1, fun hok x e => hok x ?_⟩
      simpa [Call.exec, h.2.1] using e
  | make_int k => exact ⟨(make_int_kept s k).1, (make_int_kept s k).2.1⟩
  | make_arr e n => exact ⟨make_shared_kept _ _, fun hok => hok⟩
  | make_arr_dims b d rest =>
      have h := handle_from_dims_kept s b d rest
      refine ⟨kept_trans h.1 (make_shared_kept _ _), fun hok x e => hok x ?_⟩
      simpa [Call.exec, Handle.make_arr_dims, make_shared_INT_T, h.2] using e
  | make_ptr b k =>
      have h := make_ptr_kept s b k
      refine ⟨h.1, fun hok x e => hok x ?_⟩
      simpa [Call.exec, h.2] using e
  | make_func r => exact ⟨make_shared_kept _ _, fun hok => hok⟩
  | make_func_args r args => exact ⟨make_shared_kept _ _, fun hok => hok⟩

theorem run_calls_kept :
    ∀ (calls : List Call) (s : Statics),
      s.kept (run_calls s calls) ∧ (s.int_ok → (run_calls s calls).int_ok)
  | [], s => ⟨kept_refl s, fun h => h⟩
  | c :: rest, s => by
      have h1 := exec_kept s c
      have h2 := run_calls_kept rest (c.exec s).2
      exact ⟨kept_trans h1.1 h2.1, fun hok => h2.2 (h1.2 hok)⟩

theorem start_int_ok : Statics.start.int_ok := by
  intro h e
  simp [Statics.start] at e

theorem handle_make_ptr_val (s : Statics) (b : TypePtr) (c : Bool) :
    (Handle.make_ptr s b c).1.val = (make_ptr (s.INT_PTR_T.map TypePtr.val) b.val c).1 := by
  unfold Handle.make_ptr make_ptr
  cases hP : s.INT_PTR_T <;> cases c <;> cases hi : is_int b.val <;>
    simp [make_shared]

/-! ### Transitivity and totality -/

theorem is_same_type_func_unfold (r1 r2 : Ty) (args1 args2 : List Ty) :
    is_same_type (.FuncType r1 args1) (.FuncType r2 args2) = true ↔
      (args1.length = args2.length ∧ is_same_type r1 r2 = true ∧
        is_same_type_args args1 args2 = true) := by
  simp only [is_same_type]
  by_cases hlen : args1.length = args2.length
  · by_cases hr : is_same_type r1 r2 = true
    · simp [hlen, hr]
    · simp [hlen, hr]
  · simp [hlen]

theorem is_same_type_args_cons (a b : Ty) (args1 args2 : List Ty) :
    is_same_type_args (a :: args1) (b :: args2) = true ↔
      (is_same_type a b = true ∧ is_same_type_args args1 args2 = true) := by
  simp only [is_same_type_args]
  by_cases hab : is_same_type a b = true
  · simp [hab]
  · simp [hab]

mutual
theorem is_same_type_trans :
    ∀ a b c : Ty, is_same_type a b = true → is_same_type b c = true →
      is_same_type a c = true
  | .VoidType, b, c, h1, h2 => by cases b <;> cases c <;> simp_all [is_same_type]
  | .IntType _, b, c, h1, h2 => by cases b <;> cases c <;> simp_all [is_same_type]
  | .ArrType e1 n1, b, c, h1, h2 => by
      cases b with
      | ArrType e2 n2 =>
          cases c with
          | ArrType e3 n3 =>
              simp only [is_same_type, Bool.and_eq_true, beq_iff_eq] at h1 h2 ⊢
              exact ⟨h1.1.trans h2.1, is_same_type_trans e1 e2 e3 h1.2 h2.2⟩
          | _ => simp [is_same_type] at h2
      | _ => simp [is_same_type] at h1
  | .PtrType b1 _, b, c, h1, h2 => by
      cases b with
      | PtrType b2 _ =>
          cases c with
          | PtrType b3 _ =>
              simp only [is_same_type] at h1 h2 ⊢
              exact is_same_type_trans b1 b2 b3 h1 h2
          | _ => simp [is_same_type] at h2
      | _ => simp [is_same_type] at h1
  | .FuncType r1 args1, b, c, h1, h2 => by
      cases b with
      | FuncType r2 args2 =>
          cases c with
          | FuncType r3 args3 =>
              rw [is_same_type_func_unfold] at h1 h2 ⊢
              exact ⟨h1.1.trans h2.1, is_same_type_trans r1 r2 r3 h1.2.1 h2.2.1,
                is_same_type_args_trans args1 args2 args3 h1.1 h2.1 h1.2.2 h2.2.2⟩
          | _ => simp [is_same_type] at h2
      | _ => simp [is_same_type] at h1
theorem is_same_type_args_trans :
    ∀ args1 args2 args3 : List Ty, args1.length = args2.length →
      args2.length = args3.length → is_same_type_args args1 args2 = true →
      is_same_type_args args2 args3 = true → is_same_type_args args1 args3 = true
  | [], _, _, _, _, _, _ => by simp [is_same_type_args]
  | _ :: _, [], _, h, _, _, _ => by simp at h
  | _ :: _, _ :: _, [], _, h, _, _ => by simp at h
  | a :: args1, b :: args2, c :: args3, hl1, hl2, h1, h2 => by
      rw [is_same_type_args_cons] at h1 h2 ⊢
      exact ⟨is_same_type_trans a b c h1.1 h2.1,
        is_same_type_args_trans args1 args2 args3 (by simpa using hl1) (by simpa using hl2)
          h1.2 h2.2⟩
end

theorem can_accept_of_same :
    ∀ a b : Ty, is_same_type a b = true → can_accept a b = true
  | .VoidType, b, h => by cases b <;> simp_all [is_same_type, can_accept]
  | .IntType c1, b, h => by
      cases b with
      | IntType c2 => cases c1 <;> cases c2 <;> simp_all [is_same_type, can_accept]
      | _ => simp [is_same_type] at h
  | .ArrType e1 n1, b, h => by
      cases b with
      | ArrType e2 n2 =>
          simp only [is_same_type, can_accept, Bool.and_eq_true, beq_iff_eq] at h ⊢
          exact ⟨h.1, can_accept_of_same e1 e2 h.2⟩
      | _ => simp [is_same_type] at h
  | .PtrType b1 _, b, h => by
      cases b with
      | PtrType b2 _ =>
          simp only [is_same_type, can_accept] at h ⊢
          exact can_accept_of_same b1 b2 h
      | _ => simp [is_same_type] at h
  | .FuncType r1 args1, b, h => by
      cases b with
      | FuncType r2 args2 => simpa [can_accept, is_same_type] using h
      | _ => simp [is_same_type] at h

theorem can_accept_func_eq_same (r1 r2 : Ty) (args1 args2 : List Ty) :
    can_accept (.FuncType r1 args1) (.FuncType r2 args2) =
      is_same_type (.FuncType r1 args1) (.FuncType r2 args2) := by
  simp [can_accept, is_same_type]

theorem can_accept_trans :
    ∀ a b c : Ty, can_accept a b = true → can_accept b c = true → can_accept a c = true
  | .VoidType, b, c, h1, h2 => by cases b <;> cases c <;> simp_all [can_accept]
  | .IntType c1, b, c, h1, h2 => by
      cases b with
      | IntType c2 =>
          cases c with
          | IntType c3 => cases c1 <;> cases c2 <;> cases c3 <;> simp_all [can_accept]
          | _ => simp [can_accept] at h2
      | _ => simp [can_accept] at h1
  | .ArrType e1 n1, b, c, h1, h2 => by
      cases b with
      | ArrType e2 n2 =>
          cases c with
          | ArrType e3 n3 =>
              simp only [can_accept, Bool.and_eq_true, beq_iff_eq] at h1 h2 ⊢
              exact ⟨h1.1.trans h2.1, can_accept_trans e1 e2 e3 h1.2 h2.2⟩
          | _ => simp [can_accept] at h2
      | _ => simp [can_accept] at h1
  | .PtrType b1 _, b, c, h1, h2 => by
      cases b with
      | PtrType b2 _ =>
          cases c with
          | PtrType b3 _ =>
              simp only [can_accept] at h1 h2 ⊢
              exact can_accept_trans b1 b2 b3 h1 h2
          | ArrType e3 _ =>
              simp only [can_accept] at h1 h2 ⊢
              exact can_accept_trans b1 b2 e3 h1 h2
          | _ => simp [can_accept] at h2
      | ArrType e2 n2 =>
          cases c with
          | ArrType e3 n3 =>
              simp only [can_accept, Bool.and_eq_true, beq_iff_eq] at h1 h2 ⊢
              exact can_accept_trans b1 e2 e3 h1 h2.2
          | _ => simp [can_accept] at h2
      | _ => simp [can_accept] at h1
  | .FuncType r1 args1, b, c, h1, h2 => by
      cases b with
      | FuncType r2 args2 =>
          cases c with
          | FuncType r3 args3 =>
              rw [can_accept_func_eq_same] at h1 h2 ⊢
              exact is_same_type_trans _ _ _ h1 h2
          | _ => simp [can_accept] at h2
      | _ => simp [can_accept] at h1

mutual
theorem print_type_some :
    ∀ t : Ty, well_formed t = true → ∃ text, print_type t = some text
  | .VoidType, _ => ⟨"void", by simp [print_type]⟩
  | .IntType c, _ => ⟨print_IntType c, by simp [print_type]⟩
  | .ArrType e n, hw => by
      obtain ⟨c, dims, hne, hchain⟩ := well_formed_arr_is_chain (.ArrType e n) rfl hw
      rw [hchain]
      cases dims with
      | nil => exact absurd rfl hne
      | cons d rest => exact ⟨_, print_type_chain c d rest⟩
  | .PtrType b k, hw => by
      simp only [well_formed] at hw
      cases hint : is_int b with
      | true =>
          cases b with
          | IntType c => exact ⟨print_IntType c ++ "[]", by simp [print_type, is_int]⟩
          | _ => simp [is_int] at hint
      | false =>
          cases harr : is_arr b with
          | true =>
              obtain ⟨c, dims, hne, hchain⟩ := well_formed_arr_is_chain b harr hw
              subst hchain
              cases dims with
              | nil => exact absurd rfl hne
              | cons d rest =>
                  have hb := print_base_type_chain c d rest
                  have hd := print_dim_size_chain c d rest
                  simp only [spec_array_chain, make_arr] at hb hd ⊢
                  refine ⟨print_IntType c ++ "[]" ++ spec_dims_text (d :: rest), ?_⟩
                  conv => lhs; rw [print_type]
                  simp only [is_int, is_arr, hb, hd]
                  simp
          | false =>
              obtain ⟨text, ht⟩ := print_type_some b hw
              refine ⟨"pointer of " ++ text, ?_⟩
              conv => lhs; rw [print_type]
              simp [hint, harr, ht]
  | .FuncType r args, hw => by
      simp only [well_formed, Bool.and_eq_true] at hw
      obtain ⟨tr, hr⟩ := print_type_some r hw.1
      obtain ⟨ta, ha⟩ := print_type_args_some args 0 hw.2
      exact ⟨tr ++ "(*)(" ++ ta ++ ")", by simp [print_type, hr, ha]⟩
theorem print_type_args_some :
    ∀ (args : List Ty) (i : Nat), well_formed_args args = true →
      ∃ text, print_type_args args i = some text
  | [], _, _ => ⟨"", by simp [print_type_args]⟩
  | a :: rest, i, hw => by
      simp only [well_formed_args, Bool.and_eq_true] at hw
      obtain ⟨ta, ha⟩ := print_type_some a hw.1
      obtain ⟨tr, hr⟩ := print_type_args_some rest (i + 1) hw.2
      exact ⟨(if i ≥ 1 then ", " else "") ++ ta ++ tr, by simp [print_type_args, ha, hr]⟩
end

/-! ### Printing and size under structural equality -/

theorem same_is_int_arr (a b : Ty) (h : is_same_type a b = true) :
    is_int a = is_int b ∧ is_arr a = is_arr b := by
  cases a <;> cases b <;> simp_all [is_same_type, is_int, is_arr]

theorem print_base_type_unfold (e : Ty) (n : Int) :
    _print_base_type (.ArrType e n) =
      if is_int e then
        match e with
        | .IntType c => some (print_IntType c)
        | _ => none
      else _print_base_type e := by
  cases e <;> simp [_print_base_type, is_int]

theorem print_dim_size_unfold (e : Ty) (n : Int) :
    _print_dim_size (.ArrType e n) =
      if is_int e then some ("[" ++ toString n ++ "]")
      else
        match _print_dim_size e with
        | some s => some ("[" ++ toString n ++ "]" ++ s)
        | none => none := by
  rw [_print_dim_size]

theorem same_print_base_type :
    ∀ a b : Ty, is_same_type a b = true → _print_base_type a = _print_base_type b
  | .ArrType e1 n1, b, h => by
      cases b with
      | ArrType e2 n2 =>
          simp only [is_same_type, Bool.and_eq_true, beq_iff_eq] at h
          have hi := (same_is_int_arr e1 e2 h.2).1
          rw [print_base_type_unfold, print_base_type_unfold, ← hi]
          cases hint : is_int e1 with
          | true =>
              cases e1 with
              | IntType c1 =>
                  cases e2 with
                  | IntType c2 =>
                      have hc : c1 = c2 := by simpa [is_same_type] using h.2
                      simp [hc]
                  | _ => simp [is_same_type] at h
              | _ => simp [is_int] at hint
          | false =>
              simp only [Bool.false_eq_true, if_false]
              exact same_print_base_type e1 e2 h.2
      | _ => simp [is_same_type] at h
  | .VoidType, b, h => by cases b <;> simp_all [is_same_type, _print_base_type]
  | .IntType _, b, h => by cases b <;> simp_all [is_same_type, _print_base_type]
  | .PtrType _ _, b, h => by cases b <;> simp_all [is_same_type, _print_base_type]
  | .FuncType _ _, b, h => by cases b <;> simp_all [is_same_type, _print_base_type]

theorem same_print_dim_size :
    ∀ a b : Ty, is_same_type a b = true → _print_dim_size a = _print_dim_size b
  | .ArrType e1 n1, b, h => by
      cases b with
      | ArrType e2 n2 =>
          simp only [is_same_type, Bool.and_eq_true, beq_iff_eq] at h
          have hi := (same_is_int_arr e1 e2 h.2).1
          rw [print_dim_size_unfold, print_dim_size_unfold, ← hi, h.1,
            same_print_dim_size e1 e2 h.2]
      | _ => simp [is_same_type] at h
  | .VoidType, b, h => by cases b <;> simp_all [is_same_type, _print_dim_size]
  | .IntType _, b, h => by cases b <;> simp_all [is_same_type, _print_dim_size]
  | .PtrType _ _, b, h => by cases b <;> simp_all [is_same_type, _print_dim_size]
  | .FuncType _ _, b, h => by cases b <;> simp_all [is_same_type, _print_dim_size]

theorem same_size_of_type :
    ∀ a b : Ty, is_same_type a b = true → size_of_type a = size_of_type b
  | .ArrType e1 n1, b, h => by
      cases b with
      | ArrType e2 n2 =>
          simp only [is_same_type, Bool.and_eq_true, beq_iff_eq] at h
          simp only [size_of_type, h.1, same_size_of_type e1 e2 h.2]
      | _ => simp [is_same_type] at h
  | .VoidType, b, h => by cases b <;> simp_all [is_same_type, size_of_type]
  | .IntType _, b, h => by cases b <;> simp_all [is_same_type, size_of_type]
  | .PtrType _ _, b, h => by cases b <;> simp_all [is_same_type, size_of_type]
  | .FuncType _ _, b, h => by cases b <;> simp_all [is_same_type, size_of_type]

theorem print_type_arr_unfold (e : Ty) (n : Int) :
    print_type (.ArrType e n) =
      match _print_base_type (.ArrType e n), _print_dim_size (.ArrType e n) with
      | some b, some d => some (b ++ d)
      | _, _ => none := by
  rw [print_type]

theorem print_type_ptr_unfold (b : Ty) (k : Bool) :
    print_type (.PtrType b k) =
      if is_int b then
        match print_type b with
        | some s => some (s ++ "[]")
        | none => none
      else if is_arr b then
        match _print_base_type b, _print_dim_size b with
        | some s, some d => some (s ++ "[]" ++ d)
        | _, _ => none
      else
        match print_type b with
        | some s => some ("pointer of " ++ s)
        | none => none := by
  rw [print_type]

theorem print_type_func_unfold (r : Ty) (args : List Ty) :
    print_type (.FuncType r args) =
      match print_type r, print_type_args args 0 with
      | some sr, some sa => some (sr ++ "(*)(" ++ sa ++ ")")
      | _, _ => none := by
  rw [print_type]

theorem print_type_args_unfold (a : Ty) (rest : List Ty) (i : Nat) :
    print_type_args (a :: rest) i =
      match print_type a, print_type_args rest (i + 1) with
      | some s, some t => some ((if i ≥ 1 then ", " else "") ++ s ++ t)
      | _, _ => none := by
  rw [print_type_args]

mutual
theorem same_print_type :
    ∀ a b : Ty, is_same_type a b = true → print_type a = print_type b
  | .VoidType, b, h => by cases b <;> simp_all [is_same_type]
  | .IntType c1, b, h => by
      cases b with
      | IntType c2 =>
          have hc : c1 = c2 := by simpa [is_same_type] using h
          rw [hc]
      | _ => simp [is_same_type] at h
  | .ArrType e1 n1, b, h => by
      cases b with
      | ArrType e2 n2 =>
          rw [print_type_arr_unfold, print_type_arr_unfold,
            same_print_base_type _ _ h, same_print_dim_size _ _ h]
      | _ => simp [is_same_type] at h
  | .PtrType b1 k1, b, h => by
      cases b with
      | PtrType b2 k2 =>
          have hb : is_same_type b1 b2 = true := by simpa [is_same_type] using h
          have hi := same_is_int_arr b1 b2 hb
          rw [print_type_ptr_unfold, print_type_ptr_unfold, ← hi.1, ← hi.2,
            same_print_type b1 b2 hb, same_print_base_type b1 b2 hb,
            same_print_dim_size b1 b2 hb]
      | _ => simp [is_same_type] at h
  | .FuncType r1 args1, b, h => by
      cases b with
      | FuncType r2 args2 =>
          rw [is_same_type_func_unfold] at h
          rw [print_type_func_unfold, print_type_func_unfold,
            same_print_type r1 r2 h.2.1, same_print_type_args args1 args2 0 h.1 h.2.2]
      | _ => simp [is_same_type] at h
theorem same_print_type_args :
    ∀ (args1 args2 : List Ty) (i : Nat), args1.length = args2.length →
      is_same_type_args args1 args2 = true →
      print_type_args args1 i = print_type_args args2 i
  | [], [], _, _, _ => rfl
  | [], _ :: _, _, h, _ => by simp at h
  | _ :: _, [], _, h, _ => by simp at h
  | a :: args1, b :: args2, i, hl, h => by
      rw [is_same_type_args_cons] at h
      rw [print_type_args_unfold, print_type_args_unfold, same_print_type a b h.1,
        same_print_type_args args1 args2 (i + 1) (by simpa using hl) h.2]
end

/-! ## Verified claims -/

/-- C1, evaluated: the decay rule holds, the example does not hold in every
process.  For every pointer type (any const flag) with base `b` and every
array type with any length and element `e`, `can_accept` of the pointer and
the array equals `can_accept b e`.  But `make_ptr(make_int(false))` returns
the static of `make_ptr`, which is built from the base of the first
`make_ptr` call of the process: after a first call on a const Int, or on an
array, `can_accept(make_ptr(make_int(false)), make_arr(make_int(false), 5))`
is false, on values and on handles from the start of the process.  The
example is true when the static is still uninitialised or was initialised
from a non-const Int, and for the pointer to non-const Int itself. -/
theorem can_accept_decay_example_after_first_make_ptr :
    (∀ (b e : Ty) (c : Bool) (n : Int),
        can_accept (.PtrType b c) (.ArrType e n) = can_accept b e) ∧
    can_accept (make_ptr (make_ptr none (make_int true) false).2 (make_int false) false).1
        (make_arr (make_int false) 5) = false ∧
    can_accept
        (make_ptr (make_ptr none (make_arr (make_int false) 3) false).2
          (make_int false) false).1
        (make_arr (make_int false) 5) = false ∧
    can_accept
        (Handle.make_ptr_of_int
          (Handle.make_ptr (Handle.make_int Statics.start true).2
            (Handle.make_int Statics.start true).1 false).2).1.val
        (make_arr (make_int false) 5) = false ∧
    (∀ st : Option Ty, st = none ∨ st = (make_ptr none (make_int false) false).2 →
        can_accept (make_ptr st (make_int false) false).1
          (make_arr (make_int false) 5) = true) ∧
    can_accept (Handle.make_ptr_of_int Statics.start).1.val
        (make_arr (make_int false) 5) = true ∧
    can_accept (.PtrType (make_int false) false) (make_arr (make_int false) 5) = true := by
  refine ⟨fun b e c n => by simp [can_accept], by decide, by decide, by decide, ?_,
    by decide, by decide⟩
  intro st hst
  rcases hst with h | h <;> subst h <;> decide

/-- C2: for two Int types `can_accept required provided` is false exactly
when `required` is const and `provided` is not, and true in the other three
combinations of the const flags. -/
theorem can_accept_int_int :
    (∀ c1 c2 : Bool,
        (can_accept (make_int c1) (make_int c2) = false ↔ (c1 = true ∧ c2 = false))) ∧
    (∀ c1 c2 : Bool,
        can_accept (.IntType c1) (.IntType c2) = (!c1 || c2)) ∧
    can_accept (make_int true) (make_int false) = false ∧
    can_accept (make_int false) (make_int true) = true ∧
    can_accept (make_int true) (make_int true) = true ∧
    can_accept (make_int false) (make_int false) = true := by
  refine ⟨?_, ?_, ?_, ?_, ?_, ?_⟩
  · intro c1 c2
    cases c1 <;> cases c2 <;> decide
  · intro c1 c2
    simp [can_accept]
  all_goals decide

/-- C3: `can_accept required provided` is false whenever the two types hold
different variants, except when `required` is a pointer and `provided` is an
array; in particular an array never accepts a pointer, and a pointer and a
function never accept each other in either order.  The excepted pairing is a
real exception: a pointer to Int accepts an array of Int. -/
theorem can_accept_variant_mismatch :
    (∀ a b : Ty, variant_index a ≠ variant_index b →
        ¬ (is_ptr a = true ∧ is_arr b = true) → can_accept a b = false) ∧
    (∀ (e b : Ty) (n : Int) (c : Bool),
        can_accept (.ArrType e n) (.PtrType b c) = false) ∧
    (∀ (b r : Ty) (c : Bool) (args : List Ty),
        can_accept (.PtrType b c) (.FuncType r args) = false ∧
        can_accept (.FuncType r args) (.PtrType b c) = false) ∧
    can_accept (.PtrType (make_int false) false) (make_arr (make_int false) 5) = true := by
  refine ⟨?_, ?_, ?_, by decide⟩
  · intro a b hne hpa
    cases a <;> cases b <;>
      simp_all [variant_index, is_ptr, is_arr, can_accept]
  · intro e b n c
    simp [can_accept]
  · intro b r c args
    simp [can_accept]

/-- Witness for C3 at `required = ArrType`, `provided = PtrType`. -/
theorem can_accept_variant_mismatch_witness :
    variant_index (make_arr (make_int false) 5) ≠
        variant_index (Ty.PtrType (make_int false) false) ∧
    can_accept (make_arr (make_int false) 5) (Ty.PtrType (make_int false) false) = false :=
  ⟨by decide,
   can_accept_variant_mismatch.1 _ _ (by decide) (by decide)⟩

/-- C4: `is_same_type` is reflexive.  For every type `t`, however deeply
arrays, pointers and functions are nested and whatever the argument lists,
`is_same_type t t` is true; two arrays or two functions built independently
from the same parts are therefore `is_same_type`. -/
theorem is_same_type_reflexive :
    (∀ t : Ty, is_same_type t t = true) ∧
    (∀ (e : Ty) (n : Int), is_same_type (make_arr e n) (make_arr e n) = true) ∧
    (∀ (r : Ty) (args : List Ty),
        is_same_type (make_func_args r args) (make_func_args r args) = true) ∧
    is_same_type (make_arr (make_int false) 5) (make_arr (make_int false) 5) = true :=
  ⟨is_same_type_refl, fun _ _ => is_same_type_refl _, fun _ _ => is_same_type_refl _,
    is_same_type_refl _⟩

/-- C5: `is_same_type` is symmetric: swapping the two operands never changes
the result. -/
theorem is_same_type_symmetric (a b : Ty) : is_same_type a b = is_same_type b a :=
  is_same_type_symm a b

/-- C6: for two pointer types `is_same_type` is exactly `is_same_type` of
their bases; replacing the pointers' own const flags by any other flags
leaves the result as it is, so a const and a non-const pointer to the same
base are `is_same_type`. -/
theorem is_same_type_ptr_ptr :
    (∀ (b1 b2 : Ty) (c1 c2 : Bool),
        is_same_type (.PtrType b1 c1) (.PtrType b2 c2) = is_same_type b1 b2) ∧
    (∀ (b1 b2 : Ty) (c1 c2 d1 d2 : Bool),
        is_same_type (.PtrType b1 c1) (.PtrType b2 c2) =
          is_same_type (.PtrType b1 d1) (.PtrType b2 d2)) ∧
    (∀ (b : Ty) (c1 c2 : Bool),
        is_same_type (.PtrType b c1) (.PtrType b c2) = true) := by
  refine ⟨fun b1 b2 c1 c2 => by simp [is_same_type],
    fun b1 b2 c1 c2 d1 d2 => by simp [is_same_type], fun b c1 c2 => ?_⟩
  simp [is_same_type, is_same_type_refl b]

/-- C7: two function types are `is_same_type` iff they have the same number
of arguments, their return types are `is_same_type`, and the arguments are
`is_same_type` at every position; swapping two arguments that are not
`is_same_type` with each other therefore makes the result false. -/
theorem is_same_type_func_func :
    (∀ (r1 r2 : Ty) (args1 args2 : List Ty),
        is_same_type (.FuncType r1 args1) (.FuncType r2 args2) = true ↔
          (args1.length = args2.length ∧ is_same_type r1 r2 = true ∧
            ∀ (i : Nat) (h1 : i < args1.length) (h2 : i < args2.length),
              is_same_type (args1.get ⟨i, h1⟩) (args2.get ⟨i, h2⟩) = true)) ∧
    (∀ (r a b : Ty), is_same_type a b = false →
        is_same_type (.FuncType r [a, b]) (.FuncType r [b, a]) = false) := by
  refine ⟨is_same_type_func_iff, ?_⟩
  intro r a b hab
  simp [is_same_type, is_same_type_args, hab]

/-- Witness for C7: swapping a non-const and a const Int argument. -/
theorem is_same_type_func_func_witness :
    is_same_type (make_int false) (make_int true) = false ∧
    is_same_type (make_func_args make_void [make_int false, make_int true])
      (make_func_args make_void [make_int true, make_int false]) = false :=
  ⟨by decide, is_same_type_func_func.2 make_void _ _ (by decide)⟩

/-- C8, as stated, fails: a pointer argument whose own const flag is changed
(its `is_const_type` goes from false to true, nothing else changes) leaves the
two function types `is_same_type`.  The same happens for an array argument
whose element is such a pointer, a shape outside the data-model invariant. -/
theorem is_same_type_ptr_arg_const_counterexample :
    (is_const_type (Ty.PtrType (make_int false) true) ≠
        is_const_type (Ty.PtrType (make_int false) false) ∧
      is_same_type
        (Ty.FuncType make_void [Ty.PtrType (make_int false) false])
        (set_arg_type (Ty.FuncType make_void [Ty.PtrType (make_int false) false]) 0
          (Ty.PtrType (make_int false) true)) = true) ∧
    (is_const_type (make_arr (Ty.PtrType (make_int false) true) 3) ≠
        is_const_type (make_arr (Ty.PtrType (make_int false) false) 3) ∧
      is_same_type
        (Ty.FuncType make_void [make_arr (Ty.PtrType (make_int false) false) 3])
        (set_arg_type
          (Ty.FuncType make_void [make_arr (Ty.PtrType (make_int false) false) 3]) 0
          (make_arr (Ty.PtrType (make_int false) true) 3)) = true) := by
  decide

/-- C8, amended: take a function type and replace exactly one argument, at a
position that holds a well-formed type other than a pointer (an Int, or an
array chain over Int), by a type of different constness; arity, return type
and all other arguments stay as they are.  Then the old and the new function
type are not `is_same_type`. -/
theorem is_same_type_arg_const_change (r : Ty) (args : List Ty) (i : Nat) (a2 : Ty)
    (hi : i < args.length)
    (hwf : well_formed (args.get ⟨i, hi⟩) = true)
    (hptr : is_ptr (args.get ⟨i, hi⟩) = false)
    (hconst : is_const_type a2 ≠ is_const_type (args.get ⟨i, hi⟩)) :
    is_same_type (.FuncType r args) (set_arg_type (.FuncType r args) i a2) = false := by
  cases hsame : is_same_type (.FuncType r args) (set_arg_type (.FuncType r args) i a2) with
  | false => rfl
  | true =>
      exfalso
      simp only [set_arg_type] at hsame
      obtain ⟨_, _, hargs⟩ := (is_same_type_func_iff r r args (args.set i a2)).mp hsame
      have h := hargs i hi (by simpa using hi)
      have hget : (args.set i a2).get ⟨i, by simpa using hi⟩ = a2 := by simp
      rw [hget] at h
      exact hconst (is_const_type_eq_of_same _ _ h hwf hptr).symm

/-- Witness for C8, amended: the single argument `int` becomes `const int`. -/
theorem is_same_type_arg_const_change_witness :
    is_same_type (Ty.FuncType make_void [make_int false])
      (set_arg_type (Ty.FuncType make_void [make_int false]) 0 (make_int true)) = false :=
  is_same_type_arg_const_change make_void [make_int false] 0 (make_int true)
    (by decide) (by decide) (by decide) (by decide)

/-- C9: on two function types `can_accept` coincides with `is_same_type`
(equal argument counts, `is_same_type` return types, `is_same_type` arguments
position by position); a function over a const Int argument and one over a
non-const Int argument accept each other in neither direction. -/
theorem can_accept_func_func :
    (∀ (r1 r2 : Ty) (args1 args2 : List Ty),
        can_accept (.FuncType r1 args1) (.FuncType r2 args2) =
          is_same_type (.FuncType r1 args1) (.FuncType r2 args2)) ∧
    (∀ (r : Ty) (c : Bool),
        can_accept (.FuncType r [.IntType c]) (.FuncType r [.IntType (!c)]) = false) := by
  refine ⟨fun r1 r2 args1 args2 => by simp [can_accept, is_same_type], fun r c => ?_⟩
  cases c <;> simp [can_accept, is_same_type_args, is_same_type]

/-- C10: for every base type and every non-empty dimension list `d1..dn`,
`make_arr(base, dims)` returns the right-nested chain
`Array(d1, Array(d2, ... Array(dn, base)))`, the value that `make_arr` builds
when applied from the innermost dimension outwards, and is `is_same_type`
with it; for `[2, 3]` this is `make_arr(make_arr(base, 3), 2)`. -/
theorem make_arr_dims_right_nested (base : Ty) (dims : List Int) (hne : dims ≠ []) :
    make_arr_dims base dims = some (spec_array_chain base dims) ∧
    (∃ t, make_arr_dims base dims = some t ∧
      is_same_type t (spec_array_chain base dims) = true) := by
  cases dims with
  | nil => exact absurd rfl hne
  | cons d rest =>
      have h : make_arr_dims base (d :: rest) = some (spec_array_chain base (d :: rest)) := by
        simp [make_arr_dims, ArrType_from_dims_eq_chain]
      exact ⟨h, _, h, is_same_type_refl _⟩

/-- Witness for C10: dimensions `[2, 3]` over non-const Int give the value of
`make_arr(make_arr(make_int(), 3), 2)`, as in the header example. -/
theorem make_arr_dims_right_nested_witness :
    make_arr_dims (make_int false) [2, 3] =
        some (make_arr (make_arr (make_int false) 3) 2) ∧
    (∃ t, make_arr_dims (make_int false) [2, 3] = some t ∧
      is_same_type t (make_arr (make_arr (make_int false) 3) 2) = true) :=
  make_arr_dims_right_nested (make_int false) [2, 3] (by decide)

/-- C11: `size_of_type` follows the 32-bit model.  Void gives 0, Int gives 4
whether const or not, a pointer gives 4 whatever its base, a function gives
0, and an array gives the `int` product of its length and the size of its
element, which is the exact product whenever that fits an `int`. -/
theorem size_of_type_32bit :
    size_of_type make_void = 0 ∧
    (∀ c : Bool, size_of_type (make_int c) = 4 ∧ size_of_type (.IntType c) = 4) ∧
    (∀ (b : Ty) (c : Bool), size_of_type (.PtrType b c) = 4) ∧
    (∀ (r : Ty) (args : List Ty), size_of_type (.FuncType r args) = 0) ∧
    (∀ (e : Ty) (n : Int),
        size_of_type (.ArrType e n) = wrap_int32 (n * size_of_type e)) ∧
    (∀ (e : Ty) (n : Int), -2147483648 ≤ n * size_of_type e →
        n * size_of_type e < 2147483648 →
        size_of_type (.ArrType e n) = n * size_of_type e) := by
  refine ⟨rfl, fun c => ⟨by cases c <;> rfl, rfl⟩, fun _ _ => rfl, fun _ _ => rfl,
    fun _ _ => rfl, fun e n h1 h2 => ?_⟩
  simp only [size_of_type]
  exact wrap_int32_of_fits _ h1 h2

/-- Witness for C11: an array of five pointers has size 20. -/
theorem size_of_type_32bit_witness :
    size_of_type (make_arr (Ty.PtrType make_void false) 5) = 5 * 4 :=
  size_of_type_32bit.2.2.2.2.2 (Ty.PtrType make_void false) 5 (by decide) (by decide)

/-- C12: for a non-empty dimension list over an Int of either constness, the
size of `make_arr(base, dims)` is the `int` value of 4 times the product of
the dimensions: it is congruent to that product modulo `2^32` and lies in the
`int` range; when all dimensions are positive and 4 times their product fits
a signed 32-bit `int`, it is exactly 4 times the product. -/
theorem size_of_make_arr_dims (c : Bool) (dims : List Int) (hne : dims ≠ []) :
    ∃ t, make_arr_dims (make_int c) dims = some t ∧
      size_of_type t = wrap_int32 (4 * dims.prod) ∧
      size_of_type t % 4294967296 = (4 * dims.prod) % 4294967296 ∧
      -2147483648 ≤ size_of_type t ∧ size_of_type t < 2147483648 ∧
      ((∀ d ∈ dims, 0 < d) → 4 * dims.prod < 2147483648 →
        size_of_type t = 4 * dims.prod) := by
  cases dims with
  | nil => exact absurd rfl hne
  | cons d rest =>
      refine ⟨spec_array_chain (.IntType c) (d :: rest), ?_, ?_, ?_, ?_, ?_, ?_⟩
      · simp [make_arr_dims, ArrType_from_dims_eq_chain, make_int_eq]
      · exact size_of_chain c _
      · rw [size_of_chain c, wrap_int32_emod]
      · rw [size_of_chain c]
        exact (wrap_int32_range _).1
      · rw [size_of_chain c]
        exact (wrap_int32_range _).2
      · intro hpos hfit
        rw [size_of_chain c]
        have hprod : 0 < (d :: rest).prod := List.prod_pos hpos
        exact wrap_int32_of_fits _ (by omega) hfit

/-- Witness for C12: dimensions `[2, 3]` over non-const Int give size 24. -/
theorem size_of_make_arr_dims_witness :
    ∃ t, make_arr_dims (make_int false) [2, 3] = some t ∧ size_of_type t = 24 := by
  obtain ⟨t, ht, _, _, _, _, hfit⟩ := size_of_make_arr_dims false [2, 3] (by decide)
  exact ⟨t, ht, hfit (by decide) (by decide)⟩

/-- C13: for a non-empty dimension list `d1..dn` and either constness,
printing `make_arr(make_int(c), dims)` gives the printed Int, which is `int`
or `const int`, followed by `[d1][d2]...[dn]` with the lengths in decimal,
outermost first. -/
theorem print_type_make_arr_dims (c : Bool) (dims : List Int) (hne : dims ≠ []) :
    ∃ t, make_arr_dims (make_int c) dims = some t ∧
      print_type t = some (print_IntType c ++ spec_dims_text dims) ∧
      print_type (make_int c) = some (print_IntType c) ∧
      print_IntType c = (if c then "const int" else "int") := by
  cases dims with
  | nil => exact absurd rfl hne
  | cons d rest =>
      refine ⟨spec_array_chain (.IntType c) (d :: rest), ?_, print_type_chain c d rest, ?_, ?_⟩
      · simp [make_arr_dims, ArrType_from_dims_eq_chain, make_int_eq]
      · simp [make_int_eq, print_type]
      · cases c <;> decide

/-- Witness for C13: dimensions `[2, 3]` over non-const Int print as
`int[2][3]`. -/
theorem print_type_make_arr_dims_witness :
    ∃ t, make_arr_dims (make_int false) [2, 3] = some t ∧
      print_type t = some "int[2][3]" := by
  obtain ⟨t, ht, hp, _, _⟩ := print_type_make_arr_dims false [2, 3] (by decide)
  exact ⟨t, ht, hp.trans (by decide)⟩

/-- C14: printing a pointer.  Over an Int base the text is the printed base
followed by `[]`.  Over a well-formed array base, which is a chain of
dimensions `d1..dn` over an Int, the text is that printed Int, then `[]`,
then `[d1]...[dn]`, outermost first.  Over every other base (Void, pointer,
function) the text is `pointer of ` followed by the printed base, and
printing fails exactly when printing the base fails. -/
theorem print_type_ptr :
    (∀ c k : Bool,
        print_type (.IntType c) = some (print_IntType c) ∧
        print_type (.PtrType (.IntType c) k) = some (print_IntType c ++ "[]")) ∧
    (∀ (a : Ty) (k : Bool), is_arr a = true → well_formed a = true →
        ∃ (c : Bool) (dims : List Int), dims ≠ [] ∧
          a = spec_array_chain (.IntType c) dims ∧
          print_type (.PtrType a k) =
            some (print_IntType c ++ "[]" ++ spec_dims_text dims)) ∧
    (∀ (b : Ty) (k : Bool), is_int b = false → is_arr b = false →
        print_type (.PtrType b k) = (print_type b).map (fun t => "pointer of " ++ t)) ∧
    print_type (.PtrType (make_int false) false) = some "int[]" ∧
    print_type (.PtrType (make_arr (make_int false) 3) false) = some "int[][3]" ∧
    print_type (.PtrType (.PtrType (make_int false) false) false) =
      some "pointer of int[]" := by
  refine ⟨fun c k => ⟨by simp [print_type], by simp [print_type, is_int]⟩, ?_, ?_,
    by decide, by decide, by decide⟩
  · intro a k harr hwf
    obtain ⟨c, dims, hne, hchain⟩ := well_formed_arr_is_chain a harr hwf
    refine ⟨c, dims, hne, hchain, ?_⟩
    subst hchain
    cases dims with
    | nil => exact absurd rfl hne
    | cons d rest =>
        have hb := print_base_type_chain c d rest
        have hd := print_dim_size_chain c d rest
        simp only [spec_array_chain, make_arr] at hb hd ⊢
        conv => lhs; rw [print_type]
        simp only [is_int, is_arr, hb, hd]
        simp
  · intro b k hint harr
    conv => lhs; rw [print_type]
    simp only [hint, harr, Bool.false_eq_true, if_false]
    cases print_type b <;> rfl

/-- Witness for C14: a pointer to `int[2][3]` prints as `int[][2][3]`. -/
theorem print_type_ptr_witness :
    ∃ (c : Bool) (dims : List Int), dims ≠ [] ∧
      make_arr (make_arr (make_int false) 3) 2 = spec_array_chain (.IntType c) dims ∧
      print_type (.PtrType (make_arr (make_arr (make_int false) 3) 2) true) =
        some (print_IntType c ++ "[]" ++ spec_dims_text dims) :=
  print_type_ptr.2.1 (make_arr (make_arr (make_int false) 3) 2) true (by decide) (by decide)

/-- C15: printing a function type with return type `r` and arguments
`a1..an`, all of which print, gives the printed `r`, then `(*)(`, then the
printed arguments in order with a comma and a blank between neighbours, then
`)`; without arguments the text is the printed `r` followed by `(*)()`. -/
theorem print_type_func (r : Ty) (args : List Ty) (sr : String) (texts : List String)
    (hr : print_type r = some sr) (hargs : args.map print_type = texts.map some) :
    print_type (.FuncType r args) =
        some (sr ++ "(*)(" ++ spec_comma_separated texts ++ ")") ∧
    print_type (.FuncType r []) = some (sr ++ "(*)()") := by
  constructor
  · simp only [print_type, hr, print_type_args_zero args texts hargs]
  · simp [print_type, hr, print_type_args, String.append_assoc]

/-- Witness for C15: a function from `const int` and `int[]` to `int`. -/
theorem print_type_func_witness :
    print_type (.FuncType (make_int false) [make_int true, .PtrType (make_int false) false]) =
        some ("int" ++ "(*)(" ++ spec_comma_separated ["const int", "int[]"] ++ ")") ∧
    print_type (.FuncType (make_int false) []) = some ("int" ++ "(*)()") :=
  print_type_func (make_int false) [make_int true, .PtrType (make_int false) false]
    "int" ["const int", "int[]"] (by decide) (by decide)

/-- C16, evaluated: `make_ptr` does not always return a pointer to the base
it was given.  After a first call on a const Int, the call
`make_ptr(make_int(false), false)` returns a pointer to const Int; after a
first call on a non-const Int, `make_ptr(make_int(true), false)` returns a
pointer to non-const Int; after a first call on an array, a call on an Int
returns a pointer to that array.  In every state a call with `is_const` false
on an Int base returns the static, whatever base it was built from.  The
first call of a process, and every call with `is_const` true or a base that
is not an Int, return a pointer with the base and flag given. -/
theorem make_ptr_returns_cached_base :
    (make_ptr (make_ptr none (make_int true) false).2 (make_int false) false).1 =
        .PtrType (.IntType true) false ∧
    (make_ptr (make_ptr none (make_int false) false).2 (make_int true) false).1 =
        .PtrType (.IntType false) false ∧
    (make_ptr (make_ptr none (make_arr (make_int false) 3) false).2 (make_int false) false).1 =
        .PtrType (.ArrType (.IntType false) 3) false ∧
    (∀ (p b : Ty), is_int b = true → (make_ptr (some p) b false).1 = p) ∧
    (∀ (b : Ty) (c : Bool), (make_ptr none b c).1 = .PtrType b c) ∧
    (∀ (st : Option Ty) (b : Ty) (c : Bool), (c = true ∨ is_int b = false) →
        (make_ptr st b c).1 = .PtrType b c) := by
  refine ⟨rfl, rfl, rfl, ?_, ?_, ?_⟩
  · intro p b hb
    simp [make_ptr, hb]
  · intro b c
    cases c <;> cases h : is_int b <;> simp [make_ptr, h]
  · intro st b c h
    rcases h with h | h <;> simp [make_ptr, h]

/-- C17: canonical identity.  Two calls of `make_void()` return the same
handle, two calls of `make_int` with the same flag return the same handle,
and two evaluations of `make_ptr(make_int(false), false)` return the same
handle, whatever constructor calls are made between the two (and, for the
pointer, before the first). -/
theorem canonical_handles_identical :
    (∀ (s : Statics) (mid : List Call),
        (Handle.make_void (run_calls (Handle.make_void s).2 mid)).1 =
          (Handle.make_void s).1) ∧
    (∀ (s : Statics) (mid : List Call) (c : Bool),
        (Handle.make_int (run_calls (Handle.make_int s c).2 mid) c).1 =
          (Handle.make_int s c).1) ∧
    (∀ (pre mid : List Call),
        (Handle.make_ptr_of_int
            (run_calls (Handle.make_ptr_of_int (run_calls Statics.start pre)).2 mid)).1 =
          (Handle.make_ptr_of_int (run_calls Statics.start pre)).1) := by
  refine ⟨?_, ?_, ?_⟩
  · intro s mid
    have h1 := (make_void_kept s).2.2
    have h2 := (run_calls_kept mid (Handle.make_void s).2).1.1 _ h1
    generalize run_calls (Handle.make_void s).2 mid = s2 at h2
    simp [Handle.make_void, h2]
  · intro s mid c
    obtain ⟨hc, hi, hC, hI, hr⟩ := (make_int_kept s c).2.2.2
    have hk := (run_calls_kept mid (Handle.make_int s c).2).1
    have hC2 := hk.2.1 _ hC
    have hI2 := hk.2.2.1 _ hI
    rw [hr]
    generalize run_calls (Handle.make_int s c).2 mid = s2 at hC2 hI2
    simp [Handle.make_int, hC2, hI2]
  · intro pre mid
    have hok0 : (run_calls Statics.start pre).int_ok :=
      (run_calls_kept pre Statics.start).2 start_int_ok
    generalize run_calls Statics.start pre = s at hok0
    have hi1 := (make_int_kept s false).2.2.1 hok0
    have hok1 := (make_int_kept s false).2.1 hok0
    have hint1 : is_int (Handle.make_int s false).1.val = true := by simp [hi1, is_int]
    have hp1 := (make_ptr_returns_static (Handle.make_int s false).2
      (Handle.make_int s false).1 hint1).1
    have hok2 : (Handle.make_ptr_of_int s).2.int_ok := by
      intro x e
      apply hok1 x
      simpa [Handle.make_ptr_of_int, (make_ptr_kept _ _ _).2] using e
    have hp1b : (Handle.make_ptr_of_int s).2.INT_PTR_T = some (Handle.make_ptr_of_int s).1 := hp1
    have hrun := run_calls_kept mid (Handle.make_ptr_of_int s).2
    have hp2 := hrun.1.2.2.2 _ hp1b
    have hok3 := hrun.2 hok2
    generalize run_calls (Handle.make_ptr_of_int s).2 mid = s3 at hp2 hok3
    have hi3 := (make_int_kept s3 false).2.2.1 hok3
    have hint3 : is_int (Handle.make_int s3 false).1.val = true := by simp [hi3, is_int]
    have hp3 := (make_int_kept s3 false).1.2.2.2 _ hp2
    exact (make_ptr_returns_static (Handle.make_int s3 false).2
      (Handle.make_int s3 false).1 hint3).2 _ hp3

/-- C18, evaluated: `make_ptr` tests `is_int` only, so a call with `is_const`
false on a const Int base returns the static `INT_PTR_T` in every state, not
a new object.  In a fresh process `make_ptr(make_int(true), false)` returns
the very handle that `make_ptr(make_int(false), false)` returned before, a
pointer to non-const Int, and allocates nothing.  Calls with `is_const` true
or a base that is not an Int, and all calls of `make_arr` and `make_func`,
return an object at an address that no earlier object has. -/
theorem make_ptr_const_int_returns_static :
    (∀ (s : Statics) (b : TypePtr), b.val = .IntType true →
        (Handle.make_ptr s b false).2.INT_PTR_T = some (Handle.make_ptr s b false).1) ∧
    ((Handle.make_int (Handle.make_ptr_of_int Statics.start).2 true).1.val = .IntType true ∧
      (Handle.make_ptr (Handle.make_int (Handle.make_ptr_of_int Statics.start).2 true).2
          (Handle.make_int (Handle.make_ptr_of_int Statics.start).2 true).1 false).1 =
        (Handle.make_ptr_of_int Statics.start).1 ∧
      (Handle.make_ptr_of_int Statics.start).1.val = .PtrType (.IntType false) false ∧
      (Handle.make_ptr (Handle.make_int (Handle.make_ptr_of_int Statics.start).2 true).2
          (Handle.make_int (Handle.make_ptr_of_int Statics.start).2 true).1 false).2.allocated =
        (Handle.make_ptr_of_int Statics.start).2.allocated) ∧
    (∀ (s : Statics) (b : TypePtr) (c : Bool), (c = true ∨ is_int b.val = false) →
        s.allocated ≤ (Handle.make_ptr s b c).1.addr ∧
        (Handle.make_ptr s b c).1.val = .PtrType b.val c) ∧
    (∀ (s : Statics) (e : TypePtr) (n : Int), (Handle.make_arr s e n).1.addr = s.allocated) ∧
    (∀ (s : Statics) (r : TypePtr) (args : List TypePtr),
        (Handle.make_func s r).1.addr = s.allocated ∧
        (Handle.make_func_args s r args).1.addr = s.allocated) := by
  refine ⟨?_, ⟨rfl, rfl, rfl, rfl⟩, ?_, fun _ _ _ => rfl, fun _ _ _ => ⟨rfl, rfl⟩⟩
  · intro s b hb
    exact (make_ptr_returns_static s b (by simp [hb, is_int])).1
  · intro s b c h
    unfold Handle.make_ptr
    cases hP : s.INT_PTR_T <;> rcases h with h | h <;> simp [make_shared, h]

/-- C19: for two Int operands `common_type` returns an Int that is const iff
both operands are const, and what it returns is what `make_int` returns for
that constness: the same value, and on handles the very handle of the
`make_int` call. -/
theorem common_type_int_int :
    (∀ c1 c2 : Bool,
        common_type (.IntType c1) (.IntType c2) = some (make_int (c1 && c2)) ∧
        common_type (make_int c1) (make_int c2) = some (.IntType (c1 && c2)) ∧
        (is_const_type (make_int (c1 && c2)) = true ↔ (c1 = true ∧ c2 = true))) ∧
    (∀ (s : Statics) (t1 t2 : TypePtr) (c1 c2 : Bool),
        t1.val = .IntType c1 → t2.val = .IntType c2 →
        Handle.common_type s t1 t2 = some (Handle.make_int s (c1 && c2))) ∧
    common_type (make_int true) (make_int false) = some (make_int false) ∧
    common_type (make_int true) (make_int true) = some (make_int true) := by
  refine ⟨fun c1 c2 => ⟨?_, ?_, ?_⟩, ?_, rfl, rfl⟩
  · simp [common_type, is_int]
  · cases c1 <;> cases c2 <;> rfl
  · cases c1 <;> cases c2 <;> decide
  · intro s t1 t2 c1 c2 h1 h2
    simp [Handle.common_type, h1, h2, is_int]

/-- Witness for C19 on handles: in a fresh process the common type of the
handles of `make_int(true)` and `make_int(false)` is the handle that
`make_int(false)` returns. -/
theorem common_type_int_int_witness :
    Handle.common_type Statics.start (Handle.make_int Statics.start true).1
        (Handle.make_int Statics.start false).1 =
      some (Handle.make_int Statics.start (true && false)) :=
  common_type_int_int.2.1 Statics.start _ _ true false rfl rfl

/-- C20: `can_operate` is true iff both operands are Int, of any constness,
and false as soon as one operand is Void, an array, a pointer or a
function. -/
theorem can_operate_iff_int :
    (∀ t1 t2 : Ty, can_operate t1 t2 = true ↔ (is_int t1 = true ∧ is_int t2 = true)) ∧
    (∀ c1 c2 : Bool, can_operate (.IntType c1) (.IntType c2) = true) ∧
    (∀ t1 t2 : Ty,
        (is_void t1 = true ∨ is_arr t1 = true ∨ is_ptr t1 = true ∨ is_func t1 = true ∨
          is_void t2 = true ∨ is_arr t2 = true ∨ is_ptr t2 = true ∨ is_func t2 = true) →
        can_operate t1 t2 = false) := by
  refine ⟨fun t1 t2 => by simp [can_operate], fun c1 c2 => by simp [can_operate, is_int], ?_⟩
  intro t1 t2 h
  cases t1 <;> cases t2 <;>
    simp_all [can_operate, is_int, is_void, is_arr, is_ptr, is_func]

/-- Witness for C20: an Int and a pointer to Int cannot be operated on. -/
theorem can_operate_iff_int_witness :
    can_operate (make_int false) (.PtrType (make_int false) false) = false :=
  can_operate_iff_int.2.2 _ _ (by decide)

/-- C21: `common_type` fails, returning no type, iff at least one operand is
not an Int; it succeeds exactly on the pairs for which `can_operate` is true.
The same holds for `common_type` on handles, in every process state. -/
theorem common_type_fails_iff :
    (∀ t1 t2 : Ty, common_type t1 t2 = none ↔ (is_int t1 = false ∨ is_int t2 = false)) ∧
    (∀ t1 t2 : Ty, (common_type t1 t2).isSome = can_operate t1 t2) ∧
    (∀ (s : Statics) (h1 h2 : TypePtr),
        (Handle.common_type s h1 h2).isSome = can_operate h1.val h2.val) := by
  refine ⟨?_, ?_, ?_⟩
  · intro t1 t2
    cases t1 <;> cases t2 <;> simp [common_type, is_int]
  · intro t1 t2
    cases t1 <;> cases t2 <;> simp [common_type, can_operate, is_int]
  · intro s h1 h2
    cases hv1 : h1.val <;> cases hv2 : h2.val <;>
      simp [Handle.common_type, can_operate, is_int, hv1, hv2]

/-- C22: for every type and each of the five variants, the getter succeeds
iff the matching query is true, it then returns the payload the type was
built from, and it fails, returning nothing at all, iff the query is false;
exactly one of the five queries is true. -/
theorem getters_match_queries :
    (∀ t : Ty,
        (get_void t).isSome = is_void t ∧ (get_int t).isSome = is_int t ∧
        (get_arr t).isSome = is_arr t ∧ (get_ptr t).isSome = is_ptr t ∧
        (get_func t).isSome = is_func t) ∧
    (∀ t : Ty,
        (get_void t = none ↔ is_void t = false) ∧ (get_int t = none ↔ is_int t = false) ∧
        (get_arr t = none ↔ is_arr t = false) ∧ (get_ptr t = none ↔ is_ptr t = false) ∧
        (get_func t = none ↔ is_func t = false)) ∧
    (∀ t : Ty,
        (get_void t = some () ↔ t = .VoidType) ∧
        (∀ c, get_int t = some c ↔ t = .IntType c) ∧
        (∀ e n, get_arr t = some (e, n) ↔ t = .ArrType e n) ∧
        (∀ b c, get_ptr t = some (b, c) ↔ t = .PtrType b c) ∧
        (∀ r args, get_func t = some (r, args) ↔ t = .FuncType r args)) ∧
    (∀ t : Ty,
        [is_void t, is_int t, is_arr t, is_ptr t, is_func t].count true = 1) := by
  refine ⟨?_, ?_, ?_, ?_⟩
  · intro t
    cases t <;> simp [get_void, get_int, get_arr, get_ptr, get_func, is_void, is_int,
      is_arr, is_ptr, is_func]
  · intro t
    cases t <;> simp [get_void, get_int, get_arr, get_ptr, get_func, is_void, is_int,
      is_arr, is_ptr, is_func]
  · intro t
    cases t <;> simp [get_void, get_int, get_arr, get_ptr, get_func]
  · intro t
    cases t <;> simp [is_void, is_int, is_arr, is_ptr, is_func]

/-- C23: the printer is total on well-formed types.  When the element of
every array is an Int or an array, at every depth and also inside pointer
bases, return types and arguments, printing returns a text: no
`std::get<ArrType>` meets another variant. -/
theorem print_type_total (t : Ty) (hw : well_formed t = true) :
    ∃ text, print_type t = some text :=
  print_type_some t hw

/-- Witness for C23: a function with an array return type, a pointer to an
array and a pointer to a pointer among its arguments. -/
theorem print_type_total_witness :
    ∃ text,
      print_type (.FuncType (make_arr (make_arr (make_int true) 3) 2)
        [.PtrType (make_arr (make_int false) 4) false,
         .PtrType (.PtrType make_void true) false, make_func make_void]) = some text :=
  print_type_total _ (by decide)

/-- C28: `is_same_type` is transitive, and with reflexivity and symmetry it
is an equivalence relation on types. -/
theorem is_same_type_transitive :
    (∀ a b c : Ty, is_same_type a b = true → is_same_type b c = true →
        is_same_type a c = true) ∧
    Equivalence (fun a b : Ty => is_same_type a b = true) := by
  refine ⟨is_same_type_trans, ⟨is_same_type_refl, ?_, ?_⟩⟩
  · intro a b h
    rw [is_same_type_symm]
    exact h
  · intro a b c h1 h2
    exact is_same_type_trans a b c h1 h2

/-- Witness for C28: three pointers to Int that differ in their own const
flags. -/
theorem is_same_type_transitive_witness :
    is_same_type (.PtrType (make_int false) true) (.PtrType (make_int false) false) = true :=
  is_same_type_transitive.1 (.PtrType (make_int false) true)
    (.PtrType (make_int false) true) (.PtrType (make_int false) false)
    (by decide) (by decide)

/-- C29: structural equality implies assignability: when `is_same_type a b`
is true, so is `can_accept a b`; hence every type accepts itself. -/
theorem can_accept_of_is_same_type :
    (∀ a b : Ty, is_same_type a b = true → can_accept a b = true) ∧
    (∀ t : Ty, can_accept t t = true) :=
  ⟨can_accept_of_same, fun t => can_accept_of_same t t (is_same_type_refl t)⟩

/-- Witness for C29: a const and a non-const pointer to `int[3]`. -/
theorem can_accept_of_is_same_type_witness :
    can_accept (.PtrType (make_arr (make_int false) 3) true)
      (.PtrType (make_arr (make_int false) 3) false) = true :=
  can_accept_of_is_same_type.1 _ _ (by decide)

/-- C30: `can_accept` is transitive: when `a` accepts `b` and `b` accepts
`c`, then `a` accepts `c`; this covers chains through pointer-to-pointer
acceptance followed by the decay of an array, and decay followed by
array-to-array acceptance. -/
theorem can_accept_transitive (a b c : Ty)
    (hab : can_accept a b = true) (hbc : can_accept b c = true) :
    can_accept a c = true :=
  can_accept_trans a b c hab hbc

/-- Witness for C30: a pointer to Int accepts a pointer to const Int, which
accepts an array of const Int. -/
theorem can_accept_transitive_witness :
    can_accept (.PtrType (make_int false) false) (make_arr (make_int true) 5) = true :=
  can_accept_transitive (.PtrType (make_int false) false) (.PtrType (make_int true) false)
    (make_arr (make_int true) 5) (by decide) (by decide)

/-- C31: printing and size respect structural equality.  For well-formed
types `a` and `b` with `is_same_type a b` true, the printer returns the same
text for both and `size_of_type` returns the same size. -/
theorem print_and_size_respect_same_type (a b : Ty)
    (ha : well_formed a = true) (hb : well_formed b = true)
    (hsame : is_same_type a b = true) :
    (∃ text, print_type a = some text ∧ print_type b = some text) ∧
    size_of_type a = size_of_type b := by
  obtain ⟨text, ht⟩ := print_type_some a ha
  obtain ⟨text2, ht2⟩ := print_type_some b hb
  refine ⟨⟨text, ht, ?_⟩, same_size_of_type a b hsame⟩
  rw [← same_print_type a b hsame]
  exact ht

/-- Witness for C31: two functions whose pointer argument differs in its own
const flag. -/
theorem print_and_size_respect_same_type_witness :
    (∃ text,
      print_type (.FuncType make_void [.PtrType (make_arr (make_int false) 3) true]) =
        some text ∧
      print_type (.FuncType make_void [.PtrType (make_arr (make_int false) 3) false]) =
        some text) ∧
    size_of_type (.FuncType make_void [.PtrType (make_arr (make_int false) 3) true]) =
      size_of_type (.FuncType make_void [.PtrType (make_arr (make_int false) 3) false]) :=
  print_and_size_respect_same_type _ _ (by decide) (by decide) (by decide)

end Sysy

namespace Utils

namespace Bitmap

/-! ## Auxiliary lemmas on bitmaps -/

theorem div32_eq (idx : Nat) : _div32 idx = idx / 32 := by
  unfold _div32
  rw [Nat.shiftRight_eq_div_pow]

theorem remain_div32_eq (idx : Nat) : _remain_div32 idx = idx % 32 := by
  unfold _remain_div32
  exact Nat.and_pow_two_sub_one_eq_mod idx 5

theorem bit_uint32_eq (r : Nat) (h : r < 32) : bit_uint32 r = 2 ^ r := by
  unfold bit_uint32
  rw [Nat.one_shiftLeft]
  apply Nat.mod_eq_of_lt
  calc 2 ^ r < 2 ^ 32 := Nat.pow_lt_pow_right (by norm_num) h
    _ = 4294967296 := by norm_num

theorem two_pow_lt_word (r : Nat) (h : r < 32) : 2 ^ r < 4294967296 := by
  calc 2 ^ r < 2 ^ 32 := Nat.pow_lt_pow_right (by norm_num) h
    _ = 4294967296 := by norm_num

theorem testBit_not_uint32 (x k : Nat) :
    (not_uint32 x).testBit k = (x.testBit k ^^ decide (k < 32)) := by
  unfold not_uint32
  rw [Nat.testBit_xor, show (4294967295 : Nat) = 2 ^ 32 - 1 from rfl,
    Nat.testBit_two_pow_sub_one]

theorem not_uint32_lt (x : Nat) (h : x < 4294967296) : not_uint32 x < 4294967296 := by
  unfold not_uint32
  exact Nat.xor_lt_two_pow (n := 32) h (by norm_num)

theorem get_eq (b : Bitmap) (idx : Nat) :
    b.get idx = (b._bits[idx / 32]?).map (fun w => w.testBit (idx % 32)) := by
  unfold get
  rw [div32_eq, remain_div32_eq]
  cases b._bits[idx / 32]? <;> simp [Nat.testBit, Nat.and_comm]

theorem word_index_lt (b : Bitmap) (hwf : b.wf) (i : Nat) (hi : i < b._size) :
    i / 32 < b._bits.length := by
  rw [hwf.1]
  omega

theorem get_set_word (b : Bitmap) (k w2 j : Nat) (hk : k < b._bits.length) :
    ({ b with _bits := b._bits.set k w2 } : Bitmap).get j =
      if j / 32 = k then some (w2.testBit (j % 32)) else b.get j := by
  rw [get_eq, get_eq]
  by_cases h : j / 32 = k
  · subst h
    simp [List.getElem?_set_self hk]
  · simp [h, List.getElem?_set_ne (Ne.symm h)]

theorem wf_set_word (b : Bitmap) (hwf : b.wf) (k w2 : Nat) (hw2 : w2 < 4294967296) :
    ({ b with _bits := b._bits.set k w2 } : Bitmap).wf := by
  refine ⟨by simpa using hwf.1, ?_⟩
  intro w hw
  rcases List.mem_or_eq_of_mem_set hw with h | h
  · exact hwf.2 w h
  · rw [h]
    exact hw2

/-- What replacing word `i / 32` by `f` of itself does, when `f` changes bit
`i % 32` by `g` and leaves the other 31 bits alone. -/
theorem update_word_spec (b : Bitmap) (i w : Nat) (hwf : b.wf) (hi : i < b._size)
    (hw : b._bits[i / 32]? = some w) (f : Nat → Nat) (g : Bool → Bool)
    (hlt : f w < 4294967296)
    (hbit : ∀ k, k < 32 →
      (f w).testBit k = if k = i % 32 then g (w.testBit k) else w.testBit k) :
    ({ b with _bits := b._bits.set (i / 32) (f w) } : Bitmap).get i = (b.get i).map g ∧
    ({ b with _bits := b._bits.set (i / 32) (f w) } : Bitmap).wf ∧
    (∀ j, j ≠ i →
      ({ b with _bits := b._bits.set (i / 32) (f w) } : Bitmap).get j = b.get j) := by
  have hk := word_index_lt b hwf i hi
  refine ⟨?_, wf_set_word b hwf _ _ hlt, ?_⟩
  · rw [get_set_word b _ _ _ hk, get_eq, hw]
    simp [hbit (i % 32) (Nat.mod_lt _ (by norm_num))]
  · intro j hj
    rw [get_set_word b _ _ _ hk]
    by_cases hjk : j / 32 = i / 32
    · have hne : j % 32 ≠ i % 32 := by omega
      rw [if_pos hjk, get_eq, hjk, hw]
      simp [hbit (j % 32) (Nat.mod_lt _ (by norm_num)), hne]
    · rw [if_neg hjk]

theorem word_at (b : Bitmap) (hwf : b.wf) (i : Nat) (hi : i < b._size) :
    ∃ w, b._bits[i / 32]? = some w ∧ w < 4294967296 := by
  have hk := word_index_lt b hwf i hi
  refine ⟨b._bits[i / 32], List.getElem?_eq_getElem hk, hwf.2 _ (List.getElem_mem hk)⟩

theorem set_spec (b : Bitmap) (i : Nat) (hwf : b.wf) (hi : i < b._size) :
    ∃ b1, b.set i = some b1 ∧ b1.get i = some true ∧ b1.size = b.size ∧ b1.wf ∧
      ∀ j, j ≠ i → b1.get j = b.get j := by
  obtain ⟨w, hw, hwlt⟩ := word_at b hwf i hi
  have hr : i % 32 < 32 := Nat.mod_lt _ (by norm_num)
  have h := update_word_spec b i w hwf hi hw (fun x => x ||| 2 ^ (i % 32)) (fun _ => true)
    (Nat.or_lt_two_pow (n := 32) hwlt (two_pow_lt_word _ hr))
    (by
      intro k _
      simp only [Nat.testBit_or, Nat.testBit_two_pow]
      by_cases hk : k = i % 32
      · simp [hk]
      · simp [hk, Ne.symm hk])
  refine ⟨{ b with _bits := b._bits.set (i / 32) (w ||| 2 ^ (i % 32)) }, ?_, ?_, rfl,
    h.2.1, h.2.2⟩
  · simp only [set, div32_eq, remain_div32_eq, hw, bit_uint32_eq _ hr]
  · rw [h.1, get_eq, hw]
    rfl

theorem reset_spec (b : Bitmap) (i : Nat) (hwf : b.wf) (hi : i < b._size) :
    ∃ b1, b.reset i = some b1 ∧ b1.get i = some false ∧ b1.size = b.size ∧ b1.wf ∧
      ∀ j, j ≠ i → b1.get j = b.get j := by
  obtain ⟨w, hw, hwlt⟩ := word_at b hwf i hi
  have hr : i % 32 < 32 := Nat.mod_lt _ (by norm_num)
  have h := update_word_spec b i w hwf hi hw (fun x => x &&& not_uint32 (2 ^ (i % 32)))
    (fun _ => false)
    (Nat.and_lt_two_pow (n := 32) w (not_uint32_lt _ (two_pow_lt_word _ hr)))
    (by
      intro k hk32
      simp only [Nat.testBit_and, testBit_not_uint32, Nat.testBit_two_pow]
      by_cases hk : k = i % 32
      · simp [hk, hr]
      · simp [hk, Ne.symm hk, hk32])
  refine ⟨{ b with _bits := b._bits.set (i / 32) (w &&& not_uint32 (2 ^ (i % 32))) }, ?_, ?_,
    rfl, h.2.1, h.2.2⟩
  · simp only [reset, div32_eq, remain_div32_eq, hw, bit_uint32_eq _ hr]
  · rw [h.1, get_eq, hw]
    rfl

theorem flip_spec (b : Bitmap) (i : Nat) (hwf : b.wf) (hi : i < b._size) :
    ∃ b1, b.flip i = some b1 ∧ b1.get i = (b.get i).map (fun v => !v) ∧
      b1.size = b.size ∧ b1.wf ∧ ∀ j, j ≠ i → b1.get j = b.get j := by
  obtain ⟨w, hw, hwlt⟩ := word_at b hwf i hi
  have hr : i % 32 < 32 := Nat.mod_lt _ (by norm_num)
  have h := update_word_spec b i w hwf hi hw (fun x => x ^^^ 2 ^ (i % 32)) (fun v => !v)
    (Nat.xor_lt_two_pow (n := 32) hwlt (two_pow_lt_word _ hr))
    (by
      intro k _
      simp only [Nat.testBit_xor, Nat.testBit_two_pow]
      by_cases hk : k = i % 32
      · simp [hk]
      · simp [hk, Ne.symm hk])
  refine ⟨{ b with _bits := b._bits.set (i / 32) (w ^^^ 2 ^ (i % 32)) }, ?_, h.1, rfl,
    h.2.1, h.2.2⟩
  simp only [flip, div32_eq, remain_div32_eq, hw, bit_uint32_eq _ hr]

theorem get_some_of_lt (b : Bitmap) (hwf : b.wf) (i : Nat) (hi : i < b._size) :
    ∃ v, b.get i = some v := by
  obtain ⟨w, hw, _⟩ := word_at b hwf i hi
  exact ⟨_, by rw [get_eq, hw]; rfl⟩

theorem cnt_loop_eq (b : Bitmap) (hwf : b.wf) :
    ∀ k, k ≤ b._size →
      cnt_loop b k = some ((List.range k).countP (fun i => b.get i == some true))
  | 0, _ => by simp [cnt_loop]
  | k + 1, hk => by
      have ih := cnt_loop_eq b hwf k (by omega)
      obtain ⟨v, hv⟩ := get_some_of_lt b hwf k (by omega)
      simp only [cnt_loop, ih, hv, List.range_succ, List.countP_append]
      cases v <;> simp [List.countP_cons, hv]

theorem cnt_eq_spec_count (b : Bitmap) (hwf : b.wf) (hsz : b._size < 2147483648) :
    b.cnt = some b.spec_count := by
  unfold cnt spec_count
  rw [if_neg (by omega)]
  exact cnt_loop_eq b hwf _ (Nat.le_refl _)

theorem spec_count_zero (b : Bitmap) (h : ∀ i, i < b._size → b.get i = some false) :
    b.spec_count = 0 := by
  unfold spec_count
  rw [List.countP_eq_zero]
  intro i hi
  simp [h i (List.mem_range.mp hi)]

theorem clear_spec (b : Bitmap) (hwf : b.wf) :
    b.clear.wf ∧ b.clear.size = b.size ∧ ∀ i, i < b._size → b.clear.get i = some false := by
  refine ⟨⟨by simpa [clear] using hwf.1, ?_⟩, rfl, ?_⟩
  · intro w hw
    simp only [clear, List.mem_map] at hw
    obtain ⟨_, _, rfl⟩ := hw
    norm_num
  · intro i hi
    have hk := word_index_lt b hwf i hi
    rw [get_eq]
    simp only [clear, List.getElem?_map, List.getElem?_eq_getElem hk]
    simp

theorem new_spec (n : Int) (h0 : 0 ≤ n) (h1 : n < 2147483648) :
    (new n).wf ∧ (new n).size = n.toNat ∧
      ∀ i, i < n.toNat → (new n).get i = some false := by
  have hsz : size_t_of_int n = n.toNat := by
    unfold size_t_of_int
    rw [Int.emod_eq_of_lt h0 (by omega)]
  have hceil : _ceil_div32 n.toNat = (n.toNat + 31) / 32 := by
    unfold _ceil_div32
    rw [Nat.shiftRight_eq_div_pow, Nat.mod_eq_of_lt (by omega)]
  refine ⟨⟨?_, ?_⟩, ?_, ?_⟩
  · simp [new, hsz, hceil]
  · intro w hw
    simp only [new, List.mem_replicate] at hw
    rw [hw.2]
    norm_num
  · simp [new, size, hsz]
  · intro i hi
    rw [get_eq]
    have hlt : i / 32 < (n.toNat + 31) / 32 := by omega
    simp [new, hsz, hceil, List.getElem?_replicate, hlt]

theorem not_uint32_twice (x : Nat) : not_uint32 (not_uint32 x) = x := by
  unfold not_uint32
  rw [Nat.xor_assoc, Nat.xor_self, Nat.xor_zero]

theorem flip_all_get (b : Bitmap) (i : Nat) :
    b.flip_all.get i = (b.get i).map (fun v => !v) := by
  rw [get_eq, get_eq]
  simp only [flip_all, List.getElem?_map]
  cases b._bits[i / 32]? with
  | none => rfl
  | some w =>
      simp [testBit_not_uint32, Nat.mod_lt i (show 32 > 0 by norm_num)]

theorem flip_all_wf (b : Bitmap) (hwf : b.wf) : b.flip_all.wf := by
  refine ⟨by simpa [flip_all] using hwf.1, ?_⟩
  intro w hw
  simp only [flip_all, List.mem_map] at hw
  obtain ⟨x, hx, rfl⟩ := hw
  exact not_uint32_lt x (hwf.2 x hx)

theorem flip_all_count (b : Bitmap) (hwf : b.wf) :
    b.flip_all.spec_count + b.spec_count = b._size := by
  unfold spec_count
  have hlen := List.length_eq_countP_add_countP (fun i => b.get i == some true)
    (List.range b._size)
  rw [List.length_range] at hlen
  have hcongr : List.countP (fun i => b.flip_all.get i == some true) (List.range b._size) =
      List.countP (fun a => decide ¬(b.get a == some true) = true) (List.range b._size) := by
    apply List.countP_congr
    intro i hi
    obtain ⟨v, hv⟩ := get_some_of_lt b hwf i (List.mem_range.mp hi)
    rw [flip_all_get, hv]
    cases v <;> simp
  show List.countP (fun i => b.flip_all.get i == some true) (List.range b.flip_all._size) + _ = _
  have hs : b.flip_all._size = b._size := rfl
  rw [hs, hcongr]
  omega

theorem combine_words_spec (f : Nat → Nat → Nat)
    (hlt : ∀ w v, w < 4294967296 → v < 4294967296 → f w v < 4294967296) :
    ∀ ws vs : List Nat, ws.length = vs.length →
      (∀ w ∈ ws, w < 4294967296) → (∀ v ∈ vs, v < 4294967296) →
      ∃ rs, combine_words f ws vs = some rs ∧ rs.length = ws.length ∧
        (∀ r ∈ rs, r < 4294967296) ∧
        ∀ k : Nat, rs[k]? = (ws[k]?).bind (fun w => (vs[k]?).map (f w))
  | [], vs, _, _, _ => ⟨[], by simp [combine_words]⟩
  | _ :: _, [], h, _, _ => by simp at h
  | w :: ws, v :: vs, h, hw, hv => by
      obtain ⟨rs, h1, h2, h3, h4⟩ := combine_words_spec f hlt ws vs (by simpa using h)
        (fun x hx => hw x (List.mem_cons_of_mem _ hx))
        (fun x hx => hv x (List.mem_cons_of_mem _ hx))
      refine ⟨f w v :: rs, by simp [combine_words, h1], by simp [h2], ?_, ?_⟩
      · intro r hr
        rcases List.mem_cons.mp hr with hr | hr
        · rw [hr]
          exact hlt w v (hw w (List.mem_cons_self _ _)) (hv v (List.mem_cons_self _ _))
        · exact h3 r hr
      · intro k
        cases k with
        | zero => simp
        | succ k => simpa using h4 k

theorem combine_words_short (f : Nat → Nat → Nat) :
    ∀ ws vs : List Nat, vs.length < ws.length → combine_words f ws vs = none
  | [], _, h => by simp at h
  | _ :: _, [], _ => by simp [combine_words]
  | _ :: ws, _ :: vs, h => by
      simp [combine_words, combine_words_short f ws vs (by simpa using h)]

/-- What a binary operation does when both bitmaps keep the invariant and
have the same size, for a word function `f` that acts as `g` on each of the
32 bits. -/
theorem binary_spec (f : Nat → Nat → Nat) (g : Bool → Bool → Bool)
    (hlt : ∀ w v, w < 4294967296 → v < 4294967296 → f w v < 4294967296)
    (hbit : ∀ w v k, k < 32 → (f w v).testBit k = g (w.testBit k) (v.testBit k))
    (a b : Bitmap) (ha : a.wf) (hb : b.wf) (hs : b.size = a.size) :
    ∃ ws, combine_words f a._bits b._bits = some ws ∧
      ({ a with _bits := ws } : Bitmap).wf ∧
      ∀ i, ({ a with _bits := ws } : Bitmap).get i =
        (a.get i).bind (fun x => (b.get i).map (g x)) := by
  have hsz : b._size = a._size := hs
  have hlen : a._bits.length = b._bits.length := by rw [ha.1, hb.1, hsz]
  obtain ⟨ws, h1, h2, h3, h4⟩ := combine_words_spec f hlt a._bits b._bits hlen ha.2 hb.2
  refine ⟨ws, h1, ⟨by rw [← ha.1, ← h2], h3⟩, ?_⟩
  intro i
  rw [get_eq, get_eq, get_eq]
  simp only [h4]
  cases a._bits[i / 32]? with
  | none => rfl
  | some w =>
      cases b._bits[i / 32]? with
      | none => rfl
      | some v => simp [hbit w v (i % 32) (Nat.mod_lt _ (by norm_num))]

theorem resize_wf (b : Bitmap) (n : Nat) (hw : ∀ w ∈ b._bits, w < 4294967296)
    (hn : n + 31 < 18446744073709551616) : (b.resize n).wf := by
  have hceil : _ceil_div32 n = (n + 31) / 32 := by
    unfold _ceil_div32
    rw [Nat.shiftRight_eq_div_pow, Nat.mod_eq_of_lt hn]
  refine ⟨?_, ?_⟩
  · simp only [resize, hceil, List.length_append, List.length_take, List.length_replicate]
    omega
  · intro w hmem
    simp only [resize, List.mem_append, List.mem_replicate] at hmem
    rcases hmem with h | h
    · exact hw w (List.mem_of_mem_take h)
    · rw [h.2]
      norm_num

/-! ## Verified claims on bitmaps -/

/-- C24: single-bit operations.  On a bitmap of size `n` that satisfies the
class invariant, for every index `i < n`: `get(i)` returns a value; after
`set(i)` it is true, after `reset(i)` false, after `flip(i)` the negation of
the value before; each of the three leaves `get(j)` as it was for every
`j ≠ i`, leaves `size()` as it was and keeps the invariant. -/
theorem single_bit_operations (b : Bitmap) (i : Nat) (hwf : b.wf) (hi : i < b.size) :
    (∃ v, b.get i = some v) ∧
    (∃ b1, b.set i = some b1 ∧ b1.get i = some true ∧ b1.size = b.size ∧ b1.wf ∧
      ∀ j, j ≠ i → j < b.size → b1.get j = b.get j) ∧
    (∃ b1, b.reset i = some b1 ∧ b1.get i = some false ∧ b1.size = b.size ∧ b1.wf ∧
      ∀ j, j ≠ i → j < b.size → b1.get j = b.get j) ∧
    (∃ b1, b.flip i = some b1 ∧ b1.get i = (b.get i).map (fun v => !v) ∧
      b1.size = b.size ∧ b1.wf ∧ ∀ j, j ≠ i → j < b.size → b1.get j = b.get j) := by
  refine ⟨get_some_of_lt b hwf i hi, ?_, ?_, ?_⟩
  · obtain ⟨b1, h1, h2, h3, h4, h5⟩ := set_spec b i hwf hi
    exact ⟨b1, h1, h2, h3, h4, fun j hj _ => h5 j hj⟩
  · obtain ⟨b1, h1, h2, h3, h4, h5⟩ := reset_spec b i hwf hi
    exact ⟨b1, h1, h2, h3, h4, fun j hj _ => h5 j hj⟩
  · obtain ⟨b1, h1, h2, h3, h4, h5⟩ := flip_spec b i hwf hi
    exact ⟨b1, h1, h2, h3, h4, fun j hj _ => h5 j hj⟩

/-- Witness for C24: `set(34)` on a bitmap of size 40 with bits 3 and 33
set. -/
theorem single_bit_operations_witness :
    ∃ b1, set { _bits := [8, 2], _size := 40 } 34 = some b1 ∧ b1.get 34 = some true ∧
      b1.size = 40 ∧ b1.wf ∧
      ∀ j, j ≠ 34 → j < 40 → b1.get j = get { _bits := [8, 2], _size := 40 } j :=
  (single_bit_operations { _bits := [8, 2], _size := 40 } 34
    (by unfold wf; decide) (by decide)).2.1

/-- C25: on a bitmap that keeps the class invariant and whose size fits the
`int` counter, `cnt()` returns the number of indices below `size()` at which
`get` is true; after `clear()` it returns 0; a bitmap just built by
`Bitmap(n)`, for an `int` `n` that is not negative, has `cnt()` 0. -/
theorem cnt_counts_set_bits :
    (∀ b : Bitmap, b.wf → b.size < 2147483648 →
        b.cnt = some b.spec_count ∧ b.clear.cnt = some 0 ∧ b.clear.size = b.size ∧
        b.clear.wf) ∧
    (∀ n : Int, 0 ≤ n → n < 2147483648 →
        (new n).cnt = some 0 ∧ (new n).size = n.toNat ∧ (new n).wf) := by
  constructor
  · intro b hwf hsz
    have hc := clear_spec b hwf
    refine ⟨cnt_eq_spec_count b hwf hsz, ?_, hc.2.1, hc.1⟩
    rw [cnt_eq_spec_count b.clear hc.1 hsz, spec_count_zero b.clear hc.2.2]
  · intro n h0 h1
    have hn := new_spec n h0 h1
    have hsz : (new n)._size < 2147483648 := by
      have : (new n)._size = n.toNat := hn.2.1
      omega
    refine ⟨?_, hn.2.1, hn.1⟩
    rw [cnt_eq_spec_count (new n) hn.1 hsz, spec_count_zero]
    intro i hi
    have : (new n)._size = n.toNat := hn.2.1
    exact hn.2.2 i (by omega)

/-- Witness for C25: bits 3 and 33 of a bitmap of size 40 are set, `cnt()`
returns 2, and 0 after `clear()`. -/
theorem cnt_counts_set_bits_witness :
    cnt { _bits := [8, 2], _size := 40 } = some 2 ∧
    cnt (clear { _bits := [8, 2], _size := 40 }) = some 0 ∧
    (new 40).cnt = some 0 := by
  have h := cnt_counts_set_bits.1 { _bits := [8, 2], _size := 40 }
    (by unfold wf; decide) (by decide)
  have h2 := cnt_counts_set_bits.2 40 (by decide) (by decide)
  exact ⟨h.1.trans (by decide), h.2.1, h2.1⟩

/-- C26: for two bitmaps `a` and `b` of equal size that keep the class
invariant, each binary operation returns, and for every index `i` below the
size: after `union_with`, `get(i)` of `a` is the old value or that of `b`;
after `intersect_with`, the old value and that of `b`; after `diff_with`, the
old value and not that of `b`.  The size of `a` stays, and `b`, read through
a const reference, is not written.  With different sizes the `assert` of
each operation fails. -/
theorem binary_operations :
    (∀ a b : Bitmap, a.wf → b.wf → b.size = a.size →
        (∃ a1, a.union_with b = some a1 ∧ a1.size = a.size ∧ a1.wf ∧
          ∀ i, i < a.size → ∃ x y, a.get i = some x ∧ b.get i = some y ∧
            a1.get i = some (x || y)) ∧
        (∃ a1, a.intersect_with b = some a1 ∧ a1.size = a.size ∧ a1.wf ∧
          ∀ i, i < a.size → ∃ x y, a.get i = some x ∧ b.get i = some y ∧
            a1.get i = some (x && y)) ∧
        (∃ a1, a.diff_with b = some a1 ∧ a1.size = a.size ∧ a1.wf ∧
          ∀ i, i < a.size → ∃ x y, a.get i = some x ∧ b.get i = some y ∧
            a1.get i = some (x && !y))) ∧
    (∀ a b : Bitmap, b.size ≠ a.size →
        a.union_with b = none ∧ a.intersect_with b = none ∧ a.diff_with b = none) := by
  constructor
  · intro a b ha hb hs
    have hpoint : ∀ (g : Bool → Bool → Bool) (a1 : Bitmap),
        (∀ i, a1.get i = (a.get i).bind (fun x => (b.get i).map (g x))) →
        ∀ i, i < a.size → ∃ x y, a.get i = some x ∧ b.get i = some y ∧
          a1.get i = some (g x y) := by
      intro g a1 hget i hi
      obtain ⟨x, hx⟩ := get_some_of_lt a ha i hi
      obtain ⟨y, hy⟩ := get_some_of_lt b hb i (by rw [show b._size = a._size from hs]; exact hi)
      exact ⟨x, y, hx, hy, by rw [hget, hx, hy]; rfl⟩
    refine ⟨?_, ?_, ?_⟩
    · obtain ⟨ws, h1, h2, h3⟩ := binary_spec (fun w v => w ||| v) (fun x y => x || y)
        (fun w v hw hv => Nat.or_lt_two_pow (n := 32) hw hv)
        (fun w v k _ => Nat.testBit_or w v k) a b ha hb hs
      exact ⟨{ a with _bits := ws }, by simp [union_with, hs, h1], rfl, h2,
        hpoint _ _ h3⟩
    · obtain ⟨ws, h1, h2, h3⟩ := binary_spec (fun w v => w &&& v) (fun x y => x && y)
        (fun w v _ hv => Nat.and_lt_two_pow (n := 32) w hv)
        (fun w v k _ => Nat.testBit_and w v k) a b ha hb hs
      exact ⟨{ a with _bits := ws }, by simp [intersect_with, hs, h1], rfl, h2,
        hpoint _ _ h3⟩
    · obtain ⟨ws, h1, h2, h3⟩ := binary_spec (fun w v => w &&& not_uint32 v)
        (fun x y => x && !y)
        (fun w v _ hv => Nat.and_lt_two_pow (n := 32) w (not_uint32_lt v hv))
        (fun w v k hk => by simp [Nat.testBit_and, testBit_not_uint32, hk]) a b ha hb hs
      exact ⟨{ a with _bits := ws }, by simp [diff_with, hs, h1], rfl, h2,
        hpoint _ _ h3⟩
  · intro a b hs
    simp [union_with, intersect_with, diff_with, hs]

/-- Witness for C26: the bitmaps with bits `{0, 1}` and `{1, 2}` of size 3;
bit 0 of the union is set. -/
theorem binary_operations_witness :
    ∃ a1, union_with { _bits := [3], _size := 3 } { _bits := [6], _size := 3 } = some a1 ∧
      a1.size = 3 ∧ a1.wf ∧
      ∀ i, i < 3 → ∃ x y, get { _bits := [3], _size := 3 } i = some x ∧
        get { _bits := [6], _size := 3 } i = some y ∧ a1.get i = some (x || y) :=
  (binary_operations.1 { _bits := [3], _size := 3 } { _bits := [6], _size := 3 }
    (by unfold wf; decide) (by unfold wf; decide) rfl).1

/-- C27: `flip_all()` negates `get(i)` at every index; on a bitmap of size
`n` that keeps the class invariant and fits the `int` counter, `cnt()`
afterwards is `n` minus `cnt()` before; `flip_all()` applied twice gives the
bitmap back. -/
theorem flip_all_negates :
    (∀ (b : Bitmap) (i : Nat), b.flip_all.get i = (b.get i).map (fun v => !v)) ∧
    (∀ b : Bitmap, b.wf → b.size < 2147483648 →
        ∃ c, b.cnt = some c ∧ b.flip_all.cnt = some (b.size - c) ∧ c ≤ b.size ∧
          b.flip_all.size = b.size ∧ b.flip_all.wf) ∧
    (∀ b : Bitmap, b.flip_all.flip_all = b) := by
  refine ⟨flip_all_get, ?_, ?_⟩
  · intro b hwf hsz
    have hcount := flip_all_count b hwf
    have hfw := flip_all_wf b hwf
    refine ⟨b.spec_count, cnt_eq_spec_count b hwf hsz, ?_, ?_, rfl, hfw⟩
    · rw [cnt_eq_spec_count b.flip_all hfw hsz]
      congr 1
      show b.flip_all.spec_count = b._size - b.spec_count
      omega
    · show b.spec_count ≤ b._size
      omega
  · intro b
    cases b with
    | mk bits sz =>
        simp only [flip_all, List.map_map, mk.injEq, and_true]
        conv => rhs; rw [← List.map_id bits]
        apply List.map_congr_left
        intro x _
        exact not_uint32_twice x

/-- Witness for C27: a bitmap of size 40 with two bits set has 38 bits set
after `flip_all()`. -/
theorem flip_all_negates_witness :
    ∃ c, cnt { _bits := [8, 2], _size := 40 } = some c ∧
      cnt (flip_all { _bits := [8, 2], _size := 40 }) = some (40 - c) ∧ c ≤ 40 ∧
      size (flip_all { _bits := [8, 2], _size := 40 }) = 40 ∧
      wf (flip_all { _bits := [8, 2], _size := 40 }) :=
  flip_all_negates.2.1 { _bits := [8, 2], _size := 40 } (by unfold wf; decide) (by decide)

end Bitmap

end Utils

namespace Eeyore

/-! ## Auxiliary lemmas on Eeyore statements -/

theorem remove_int_no_int :
    ∀ (oprs : List Operand) (o : Operand), o ∈ remove_int_from_vec oprs → holds_int o = false
  | [], o, h => by simp [remove_int_from_vec] at h
  | opr :: rest, o, h => by
      cases hopr : holds_int opr with
      | true =>
          simp only [remove_int_from_vec, hopr, if_true] at h
          exact remove_int_no_int rest o h
      | false =>
          simp only [remove_int_from_vec, hopr, Bool.false_eq_true, if_false,
            List.mem_cons] at h
          rcases h with h | h
          · rw [h]
            exact hopr
          · exact remove_int_no_int rest o h

theorem remove_int_single (o : Operand) :
    remove_int_from_vec [o] = if holds_int o then [] else [o] := by
  cases h : holds_int o <;> simp [remove_int_from_vec, h]

/-! ## Verified claims on Eeyore statements -/

/-- C32, evaluated: `defined_vars` has no overload for `ReadArrStmt`, so for
`opr = arr_opr[idx_opr]` it returns the empty list also when `opr` is a
variable, while `used_vars` reports only `arr_opr` and `idx_opr` for that
statement.  For `UnaryOpStmt`, `BinaryOpStmt` and `MoveStmt` it returns
exactly `[opr]` when `opr` is a variable and the empty list when `opr` is an
`int`; and no list returned by `defined_vars` or `used_vars`, for any
statement, contains an `int` operand. -/
theorem defined_vars_misses_read_arr :
    defined_vars (.ReadArrStmt (.TempVar 0) (.OrigVar 1 40) (.int 2)) = [] ∧
    used_vars (.ReadArrStmt (.TempVar 0) (.OrigVar 1 40) (.int 2)) = [.OrigVar 1 40] ∧
    (∀ opr arr_opr idx_opr : Operand,
        defined_vars (.ReadArrStmt opr arr_opr idx_opr) = []) ∧
    (∀ (op : UnaryOp) (opr opr1 : Operand),
        defined_vars (.UnaryOpStmt op opr opr1) = if holds_int opr then [] else [opr]) ∧
    (∀ (op : BinaryOp) (opr opr1 opr2 : Operand),
        defined_vars (.BinaryOpStmt op opr opr1 opr2) = if holds_int opr then [] else [opr]) ∧
    (∀ opr opr1 : Operand,
        defined_vars (.MoveStmt opr opr1) = if holds_int opr then [] else [opr]) ∧
    (∀ (stmt : EeyoreStatement) (o : Operand),
        (o ∈ defined_vars stmt → holds_int o = false) ∧
        (o ∈ used_vars stmt → holds_int o = false)) := by
  refine ⟨by decide, by decide, fun _ _ _ => rfl, fun _ opr _ => remove_int_single opr,
    fun _ opr _ _ => remove_int_single opr, fun opr _ => remove_int_single opr, ?_⟩
  intro stmt o
  exact ⟨remove_int_no_int _ o, remove_int_no_int _ o⟩

end Eeyore
